import Mathlib

/-! Column types of the PostGIS backend (`database/postgis/fields.go`).

A shallow embedding of the column-type variants, of the default registry
`pgTypes` and of `registerColumnType`, together with the fragment of Go's
`fmt` package that the three format strings of the file exercise
(`%d` on `int`, `%s` on `string`, `%f` on `float64`).
-/

namespace postgis

/-! ## The fragment of `fmt` used by the package -/

/-- IEEE 754 binary64 value, the representation of Go's `float64`, given by its
three bit fields: sign bit, biased exponent (11 bits) and fraction (52 bits). -/
structure float64 where
  sign : Bool
  exponent : Nat
  fraction : Nat
deriving DecidableEq, Repr

/-- The bit fields are in range. -/
def float64.wellFormed (f : float64) : Prop :=
  f.exponent < 2048 ∧ f.fraction < 2 ^ 52

instance (f : float64) : Decidable f.wellFormed := by
  unfold float64.wellFormed; infer_instance

/-- Operands of a formatting call (`...interface{}`), restricted to the dynamic
types that this package passes. -/
inductive Arg where
  | int (i : Int)
  | string (s : String)
  | float64 (f : float64)
deriving DecidableEq, Repr

/-- The digit table `"0123456789"` indexed by a digit value, as a byte
`'0' + d`. -/
def digitByte (d : Nat) : Char := Char.ofNat (48 + d)

/-- The base-10 loop of `fmt.fmtInteger`: digits are written from the end of
the buffer towards its start, `for u >= 10 { next := u / 10;
buf[i] = '0' + u - next*10; u = next }`, then the last digit `digits[u]`.
The first argument bounds the number of iterations. -/
def fmtIntegerLoop : Nat → Nat → List Char → List Char
  | 0, u, buf => digitByte u :: buf
  | fuel + 1, u, buf =>
    if u ≥ 10 then
      fmtIntegerLoop fuel (u / 10) (digitByte (u - u / 10 * 10) :: buf)
    else digitByte u :: buf

/-- Unsigned base-10 formatting; `u` iterations always suffice because every
iteration divides by ten. -/
def fmtUnsigned (u : Nat) : List Char := fmtIntegerLoop u u []

/-- Verb `%d` on a signed integer (`fmt.fmtInteger` with `isSigned`): the
magnitude is formatted and a `-` is put in front of a negative value. -/
def fmtInteger (i : Int) : List Char :=
  if i < 0 then '-' :: fmtUnsigned i.natAbs else fmtUnsigned i.natAbs

/-- Left-pads a digit list with `'0'` up to the given width. -/
def padZeros (width : Nat) (ds : List Char) : List Char :=
  List.replicate (width - ds.length) '0' ++ ds

/-- Round to nearest, ties to even, of `num / den` (as in
`strconv.decimal.Round`, which rounds the exact decimal expansion). -/
def roundHalfEven (num den : Nat) : Nat :=
  let q := num / den
  let r := num % den
  if 2 * r > den then q + 1
  else if 2 * r = den then (if q % 2 = 1 then q + 1 else q)
  else q

/-- The exact value of a finite binary64 magnitude multiplied by `10^6` and
rounded to an integer: `mant * 2^(e-1075) * 10^6`, where subnormals
(`exponent = 0`) have no implicit leading bit. -/
def scaledMicros (f : float64) : Nat :=
  let mant := if f.exponent = 0 then f.fraction else 2 ^ 52 + f.fraction
  let e := if f.exponent = 0 then 1 else f.exponent
  if e ≥ 1075 then mant * 2 ^ (e - 1075) * 10 ^ 6
  else roundHalfEven (mant * 10 ^ 6) (2 ^ (1075 - e))

/-- Verb `%f` on a `float64` (`strconv.AppendFloat(_, v, 'f', 6, 64)` followed
by the sign handling of `fmt.fmtFloat`): six digits after the point, a `-` for
a set sign bit, and `+Inf`, `-Inf`, `NaN` for the non-finite values. -/
def fmtFloat (f : float64) : List Char :=
  if f.exponent = 2047 then
    if f.fraction = 0 then (if f.sign then "-Inf".toList else "+Inf".toList)
    else "NaN".toList
  else
    let q := scaledMicros f
    (if f.sign then ['-'] else []) ++
      fmtUnsigned (q / 10 ^ 6) ++ '.' :: padZeros 6 (fmtUnsigned (q % 10 ^ 6))

/-- Dynamic type name of an operand, as printed in bad-verb markers. -/
def Arg.typeName : Arg → String
  | .int _ => "int"
  | .string _ => "string"
  | .float64 _ => "float64"

/-- The operand rendered with the verb that matches its type. -/
def Arg.render : Arg → List Char
  | .int i => fmtInteger i
  | .string s => s.toList
  | .float64 f => fmtFloat f

/-- One operand under one verb (`printArg`): `%d` takes an `int`, `%s` a
`string`, `%f` a `float64`; any other pairing yields the bad-verb marker
`%!verb(type=value)`. Flags, widths, precisions and the remaining verbs do not
occur in the package. -/
def printArg (verb : Char) (a : Arg) : List Char :=
  match verb, a with
  | 'd', .int i => fmtInteger i
  | 's', .string s => s.toList
  | 'f', .float64 f => fmtFloat f
  | _, a => "%!".toList ++ verb :: '(' :: a.typeName.toList ++ '=' :: a.render ++ [')']

/-- Operands left over after the format is exhausted: `%!(EXTRA type=value, ...)`. -/
def extraArgs : List Arg → List Char
  | [] => []
  | a :: as =>
    "%!(EXTRA ".toList ++
      (", ".toList).intercalate ((a :: as).map fun x =>
        x.typeName.toList ++ '=' :: x.render) ++ [')']

/-- The scanning loop of `fmt.(*pp).doPrintf`: text up to a `%` is copied, `%%`
prints a percent sign, a verb consumes the next operand. -/
def doPrintf : List Char → List Arg → List Char
  | [], args => extraArgs args
  | c :: rest, args =>
    if c ≠ '%' then c :: doPrintf rest args
    else
      match rest with
      | [] => "%!(NOVERB)".toList ++ extraArgs args
      | verb :: rest2 =>
        if verb = '%' then '%' :: doPrintf rest2 args
        else
          match args with
          | [] => "%!".toList ++ verb :: "(MISSING)".toList ++ doPrintf rest2 []
          | a :: as => printArg verb a ++ doPrintf rest2 as

/-- Go's `fmt.Sprintf`. -/
def Sprintf (format : String) (args : List Arg) : String :=
  String.mk (doPrintf format.toList args)

/-! ## Collaborating types -/

/-- Modelled from the spec: the declaration of `TableSpec` is outside
`fields.go`; the only field this file reads is the declared geometry kind. -/
structure TableSpec where
  GeometryType : String
deriving DecidableEq, Repr

/-- Modelled from the spec: the declaration of `ColumnSpec` is outside
`fields.go`; it carries the column name. -/
structure ColumnSpec where
  Name : String
deriving DecidableEq, Repr

/-- Modelled from the spec: the declaration of `GeneralizedTableSpec` is outside
`fields.go`; it carries the tolerance, the full name used in diagnostics and a
pointer (possibly nil) to the source table. -/
structure GeneralizedTableSpec where
  FullName : String
  Source : Option TableSpec
  Tolerance : float64
deriving DecidableEq, Repr

/-- Severity of a log line. -/
inductive Level where
  | debug
  | info
  | warning
  | error
deriving DecidableEq, Repr

/-- One line written to the package logger. -/
structure LogEntry where
  level : Level
  text : String
deriving DecidableEq, Repr

/-- The package logger as explicit state: the lines written so far, oldest
first. -/
abbrev Log := List LogEntry

/-- Modelled from the spec: the package variable `log` is declared outside
`fields.go`; `log.Warnf` writes one warning-level line holding the formatted
text. -/
def Log.Warnf (log : Log) (format : String) (args : List Arg) : Log :=
  log ++ [⟨Level.warning, Sprintf format args⟩]

/-- Message of the run-time panic raised by a field access through a nil
pointer. -/
def nilDereference : String :=
  "runtime error: invalid memory address or nil pointer dereference"

/-- Field access `p.field` through a pointer that may be nil. -/
def deref {α β : Type} (p : Option α) (field : α → β) : Except String β :=
  match p with
  | some x => .ok (field x)
  | none => .error nilDereference

/-! ## The column types -/

structure simpleColumnType where
  name : String
deriving DecidableEq, Repr

def simpleColumnType.Name (t : simpleColumnType) : String := t.name

def simpleColumnType.IsGeometry (_t : simpleColumnType) : Bool := false

def simpleColumnType.PrepareInsertSql (_t : simpleColumnType) (i : Int)
    (_spec : Option TableSpec) : String :=
  Sprintf "$%d" [.int i]

def simpleColumnType.GeneralizeSql (_t : simpleColumnType) (colSpec : Option ColumnSpec)
    (_spec : Option GeneralizedTableSpec) : Except String String := do
  let name ← deref colSpec ColumnSpec.Name
  return "\"" ++ name ++ "\""

/-- The embedded `simpleColumnType` supplies `Name`, `IsGeometry` and
`GeneralizeSql`. -/
structure hstoreColumnType where
  simpleColumnType : simpleColumnType
deriving DecidableEq, Repr

def hstoreColumnType.Name (t : hstoreColumnType) : String := t.simpleColumnType.Name

def hstoreColumnType.IsGeometry (t : hstoreColumnType) : Bool := t.simpleColumnType.IsGeometry

def hstoreColumnType.PrepareInsertSql (_t : hstoreColumnType) (i : Int)
    (_spec : Option TableSpec) : String :=
  Sprintf "$%d::hstore" [.int i]

def hstoreColumnType.GeneralizeSql (t : hstoreColumnType) (colSpec : Option ColumnSpec)
    (spec : Option GeneralizedTableSpec) : Except String String :=
  t.simpleColumnType.GeneralizeSql colSpec spec

structure geometryType where
  name : String
deriving DecidableEq, Repr

def geometryType.Name (t : geometryType) : String := t.name

def geometryType.IsGeometry (_t : geometryType) : Bool := true

def geometryType.PrepareInsertSql (_t : geometryType) (i : Int)
    (_spec : Option TableSpec) : String :=
  Sprintf "$%d::Geometry" [.int i]

def geometryType.GeneralizeSql (_t : geometryType) (colSpec : Option ColumnSpec)
    (spec : Option GeneralizedTableSpec) : Except String String := do
  let name ← deref colSpec ColumnSpec.Name
  let tolerance ← deref spec GeneralizedTableSpec.Tolerance
  let asName ← deref colSpec ColumnSpec.Name
  return Sprintf "ST_SimplifyPreserveTopology(\"%s\", %f) as \"%s\""
    [.string name, .float64 tolerance, .string asName]

/-- The embedded `geometryType` supplies `Name`, `IsGeometry` and
`PrepareInsertSql`. -/
structure validatedGeometryType where
  geometryType : geometryType
deriving DecidableEq, Repr

def validatedGeometryType.Name (t : validatedGeometryType) : String := t.geometryType.Name

def validatedGeometryType.IsGeometry (t : validatedGeometryType) : Bool :=
  t.geometryType.IsGeometry

def validatedGeometryType.PrepareInsertSql (t : validatedGeometryType) (i : Int)
    (spec : Option TableSpec) : String :=
  t.geometryType.PrepareInsertSql i spec

/-- The rendering part of `validatedGeometryType.GeneralizeSql`, after the
check of the source geometry kind. -/
def validatedGeometryType.render (colSpec : Option ColumnSpec) (s : GeneralizedTableSpec) :
    Except String String := do
  let name ← deref colSpec ColumnSpec.Name
  let asName ← deref colSpec ColumnSpec.Name
  return Sprintf "ST_Buffer(ST_SimplifyPreserveTopology(\"%s\", %f), 0) as \"%s\""
    [.string name, .float64 s.Tolerance, .string asName]

/-- The logger is threaded through: the result is the returned string (or the
panic) together with the log after the call. -/
def validatedGeometryType.GeneralizeSql (_t : validatedGeometryType)
    (colSpec : Option ColumnSpec) (spec : Option GeneralizedTableSpec) (log : Log) :
    Except String String × Log :=
  match spec with
  | none => (.error nilDereference, log)
  | some s =>
    match s.Source with
    | none => (.error nilDereference, log)
    | some source =>
      if source.GeometryType ≠ "polygon" then
        (validatedGeometryType.render colSpec s,
          log.Warnf "validated_geometry column returns polygon geometries for %s"
            [.string s.FullName])
      else (validatedGeometryType.render colSpec s, log)

/-- The implementations of the interface `ColumnType` declared in the file. -/
inductive ColumnType where
  | simple (t : simpleColumnType)
  | hstore (t : hstoreColumnType)
  | geometry (t : geometryType)
  | validatedGeometry (t : validatedGeometryType)
deriving DecidableEq, Repr

def ColumnType.Name : ColumnType → String
  | .simple t => t.Name
  | .hstore t => t.Name
  | .geometry t => t.Name
  | .validatedGeometry t => t.Name

def ColumnType.IsGeometry : ColumnType → Bool
  | .simple t => t.IsGeometry
  | .hstore t => t.IsGeometry
  | .geometry t => t.IsGeometry
  | .validatedGeometry t => t.IsGeometry

def ColumnType.PrepareInsertSql (c : ColumnType) (i : Int) (spec : Option TableSpec) : String :=
  match c with
  | .simple t => t.PrepareInsertSql i spec
  | .hstore t => t.PrepareInsertSql i spec
  | .geometry t => t.PrepareInsertSql i spec
  | .validatedGeometry t => t.PrepareInsertSql i spec

/-- Dynamic dispatch of `GeneralizeSql`; only the validated geometry touches
the logger. -/
def ColumnType.GeneralizeSql (c : ColumnType) (colSpec : Option ColumnSpec)
    (spec : Option GeneralizedTableSpec) (log : Log) : Except String String × Log :=
  match c with
  | .simple t => (t.GeneralizeSql colSpec spec, log)
  | .hstore t => (t.GeneralizeSql colSpec spec, log)
  | .geometry t => (t.GeneralizeSql colSpec spec, log)
  | .validatedGeometry t => t.GeneralizeSql colSpec spec log

/-! ## The registry -/

/-- A Go `map[string]ColumnType` as an association list. -/
abbrev Registry := List (String × ColumnType)

/-- The keys of the map. -/
def Registry.keys (r : Registry) : List String := r.map Prod.fst

/-- Map index expression `v, ok := m[k]`. -/
def Registry.get (r : Registry) (k : String) : Option ColumnType := r.lookup k

/-- Map assignment `m[k] = v`: the entry for `k` is replaced or added. -/
def Registry.set (r : Registry) (k : String) (v : ColumnType) : Registry :=
  (k, v) :: r.filter fun e => e.1 ≠ k

def pgTypes : Registry := [
  ("string", .simple ⟨"VARCHAR"⟩),
  ("bool", .simple ⟨"BOOL"⟩),
  ("int8", .simple ⟨"SMALLINT"⟩),
  ("int32", .simple ⟨"INT"⟩),
  ("int64", .simple ⟨"BIGINT"⟩),
  ("float32", .simple ⟨"REAL"⟩),
  ("hstore_string", .simple ⟨"HSTORE"⟩),
  ("geometry", .geometry ⟨"GEOMETRY"⟩),
  ("validated_geometry", .validatedGeometry ⟨⟨"GEOMETRY"⟩⟩),
  ("geometry_noindex", .geometry ⟨"GEOMETRYNOINDEX"⟩),
  ("point", .geometry ⟨"POINT"⟩),
  ("linestring", .geometry ⟨"LINESTRING"⟩),
  ("json_string", .simple ⟨"JSON"⟩),
  ("jsonb_string", .simple ⟨"JSONB"⟩),
  ("date", .simple ⟨"DATE"⟩),
  ("time", .simple ⟨"TIME"⟩),
  ("timestamp", .simple ⟨"TIMESTAMP"⟩),
  ("char1", .simple ⟨"\"char\""⟩)]

/-- The registry is passed in and returned: the first component is `.ok ()` for
a normal return and `.error msg` for `panic(msg)`, the second is the map after
the call. -/
def registerColumnType (pgTypes : Registry) (ColumnTypeName : String)
    (columntype : ColumnType) : Except String Unit × Registry :=
  match pgTypes.get ColumnTypeName with
  | some _ => (.error ("postgis.RegisterColumnType duplicate key: " ++ ColumnTypeName), pgTypes)
  | none => (.ok (), pgTypes.set ColumnTypeName columntype)

/-! ## Interface values with pointer receivers -/

/-- A value of the interface `ColumnType` as the program holds it: a pointer to
one of the four struct types, where the pointer may be nil (a typed nil). -/
inductive ColumnTypeRef where
  | simple (p : Option simpleColumnType)
  | hstore (p : Option hstoreColumnType)
  | geometry (p : Option geometryType)
  | validatedGeometry (p : Option validatedGeometryType)
deriving DecidableEq, Repr

/-- The interface value made from the address of a variant, `&simpleColumnType{...}`
and the like: its pointer is not nil. -/
def ColumnType.toRef : ColumnType → ColumnTypeRef
  | .simple t => .simple (some t)
  | .hstore t => .hstore (some t)
  | .geometry t => .geometry (some t)
  | .validatedGeometry t => .validatedGeometry (some t)

/-- Whether the pointer held by the interface value is nil. -/
def ColumnTypeRef.isNil : ColumnTypeRef → Bool
  | .simple p => p.isNone
  | .hstore p => p.isNone
  | .geometry p => p.isNone
  | .validatedGeometry p => p.isNone

/-- `Name()` on a pointer receiver: `t.name` dereferences the receiver; the
method promoted from the embedded struct is called on `&t.simpleColumnType`
(`&t.geometryType`), and evaluating that address through a nil outer pointer
panics, as the language specification requires of `x.f` and `&x.f` for nil
`x`. -/
def ColumnTypeRef.Name : ColumnTypeRef → Except String String
  | .simple p => deref p simpleColumnType.Name
  | .hstore p => deref p hstoreColumnType.Name
  | .geometry p => deref p geometryType.Name
  | .validatedGeometry p => deref p validatedGeometryType.Name

/-- `IsGeometry()` on a pointer receiver: the methods of `simpleColumnType` and
`geometryType` do not read the receiver; the promoted ones dereference the
outer pointer to reach the embedded struct. -/
def ColumnTypeRef.IsGeometry : ColumnTypeRef → Except String Bool
  | .simple _ => .ok false
  | .hstore p => deref p hstoreColumnType.IsGeometry
  | .geometry _ => .ok true
  | .validatedGeometry p => deref p validatedGeometryType.IsGeometry

/-- `PrepareInsertSql` on a pointer receiver: the three methods written in the
file do not read the receiver; the one promoted to `validatedGeometryType`
dereferences the outer pointer to reach the embedded `geometryType`. -/
def ColumnTypeRef.PrepareInsertSql (c : ColumnTypeRef) (i : Int) (spec : Option TableSpec) :
    Except String String :=
  match c with
  | .simple _ => .ok (Sprintf "$%d" [.int i])
  | .hstore _ => .ok (Sprintf "$%d::hstore" [.int i])
  | .geometry _ => .ok (Sprintf "$%d::Geometry" [.int i])
  | .validatedGeometry p => deref p fun t => t.PrepareInsertSql i spec

/-- `GeneralizeSql` on a pointer receiver, with the logger threaded through: the
three methods written in the file do not read the receiver; the one promoted to
`hstoreColumnType` dereferences the outer pointer to reach the embedded
`simpleColumnType`. -/
def ColumnTypeRef.GeneralizeSql (c : ColumnTypeRef) (colSpec : Option ColumnSpec)
    (spec : Option GeneralizedTableSpec) (log : Log) : Except String String × Log :=
  match c with
  | .simple _ =>
    (do
      let name ← deref colSpec ColumnSpec.Name
      return "\"" ++ name ++ "\"", log)
  | .hstore p =>
    match p with
    | none => (.error nilDereference, log)
    | some t => (t.GeneralizeSql colSpec spec, log)
  | .geometry _ =>
    (do
      let name ← deref colSpec ColumnSpec.Name
      let tolerance ← deref spec GeneralizedTableSpec.Tolerance
      let asName ← deref colSpec ColumnSpec.Name
      return Sprintf "ST_SimplifyPreserveTopology(\"%s\", %f) as \"%s\""
        [.string name, .float64 tolerance, .string asName], log)
  | .validatedGeometry _ =>
    match spec with
    | none => (.error nilDereference, log)
    | some s =>
      match s.Source with
      | none => (.error nilDereference, log)
      | some source =>
        if source.GeometryType ≠ "polygon" then
          (validatedGeometryType.render colSpec s,
            log.Warnf "validated_geometry column returns polygon geometries for %s"
              [.string s.FullName])
        else (validatedGeometryType.render colSpec s, log)

/-- The map `pgTypes` with its values as interface values. -/
def pgTypesRef : List (String × ColumnTypeRef) :=
  pgTypes.map fun e => (e.1, e.2.toRef)

/-- The function `registerColumnType` on a map whose values are interface
values, which it stores without looking at them. -/
def registerColumnTypeRef (pgTypes : List (String × ColumnTypeRef)) (ColumnTypeName : String)
    (columntype : ColumnTypeRef) : Except String Unit × List (String × ColumnTypeRef) :=
  match pgTypes.lookup ColumnTypeName with
  | some _ => (.error ("postgis.RegisterColumnType duplicate key: " ++ ColumnTypeName), pgTypes)
  | none =>
    (.ok (), (ColumnTypeName, columntype) :: pgTypes.filter fun e => e.1 ≠ ColumnTypeName)

/-! ## Reference notions used in the statements -/

/-- Decimal numeral of a natural number: its base-10 digits, most significant
first, `0` written as the single digit `0`. -/
def decimalNat (n : Nat) : String :=
  if n = 0 then "0" else String.mk ((Nat.digits 10 n).reverse.map Nat.digitChar)

/-- Decimal numeral of an integer: a minus sign for a negative value, then the
numeral of the magnitude. -/
def decimal (i : Int) : String :=
  if i < 0 then "-" ++ decimalNat i.natAbs else decimalNat i.natAbs

/-- Go's `len(m)`: the number of keys of the map. -/
def Registry.len (r : Registry) : Nat := r.keys.dedup.length

/-- A sequence of `registerColumnType` calls run one after the other, each on
the registry left by the one before; a call that panics leaves the registry it
was given. -/
def registerAll (r : Registry) : List (String × ColumnType) → Registry
  | [] => r
  | (k, v) :: calls => registerAll (registerColumnType r k v).2 calls

/-- Value of a string of decimal digits, most significant first. -/
def digitsValue (ds : List Char) : Nat :=
  ds.foldl (fun acc c => 10 * acc + (c.toNat - 48)) 0

/-- The cast suffix that a variant puts after the placeholder. -/
def ColumnType.castSuffix : ColumnType → String
  | .simple _ => ""
  | .hstore _ => "::hstore"
  | .geometry _ => "::Geometry"
  | .validatedGeometry _ => "::Geometry"

/-- The magnitude of a finite binary64 as a rational number:
`mant * 2^(e-1075)`, where subnormals (`exponent = 0`) have no implicit leading
bit. -/
def float64.magnitude (f : float64) : ℚ :=
  let mant := if f.exponent = 0 then f.fraction else 2 ^ 52 + f.fraction
  let e := if f.exponent = 0 then 1 else f.exponent
  if e ≥ 1075 then ((mant * 2 ^ (e - 1075) : Nat) : ℚ) else (mant : ℚ) / 2 ^ (1075 - e)

/-- The value of a finite binary64 as a rational number. -/
def float64.toRat (f : float64) : ℚ :=
  if f.sign then -f.magnitude else f.magnitude

/-- Splits a text at its first `.`: the part before it and the part after it. -/
def splitPoint : List Char → List Char × List Char
  | [] => ([], [])
  | c :: cs => if c = '.' then ([], cs) else (c :: (splitPoint cs).1, (splitPoint cs).2)

/-- Fixed-point decimal text with exactly six digits after the point and no
exponent: an optional `-`, at least one digit, a `.`, six digits. -/
def isFixedPoint6 (text : List Char) : Bool :=
  let body := if text.head? = some '-' then text.tail else text
  let p := splitPoint body
  !p.1.isEmpty && p.1.all Char.isDigit && p.2.length == 6 && p.2.all Char.isDigit

/-- The rational number denoted by fixed-point decimal text. -/
def fixedPointValue (text : List Char) : ℚ :=
  let body := if text.head? = some '-' then text.tail else text
  let p := splitPoint body
  let v : ℚ := (digitsValue p.1 : ℚ) + (digitsValue p.2 : ℚ) / 10 ^ p.2.length
  if text.head? = some '-' then -v else v


/-! ## Integer formatting agrees with the decimal numeral -/

theorem digitByte_eq_digitChar (d : Nat) (h : d < 10) : digitByte d = Nat.digitChar d := by
  interval_cases d <;> rfl

theorem fmtIntegerLoop_eq_digits (fuel : Nat) :
    ∀ (u : Nat) (buf : List Char), u ≤ fuel → 0 < u →
      fmtIntegerLoop fuel u buf = (Nat.digits 10 u).reverse.map Nat.digitChar ++ buf := by
  induction fuel with
  | zero => intro u buf h1 h2; omega
  | succ fuel ih =>
    intro u buf h1 h2
    unfold fmtIntegerLoop
    by_cases hu : u ≥ 10
    · rw [if_pos hu, ih (u / 10) _ (by omega) (by omega)]
      have hmod : u - u / 10 * 10 = u % 10 := by omega
      rw [hmod, digitByte_eq_digitChar _ (Nat.mod_lt _ (by decide))]
      conv_rhs => rw [Nat.digits_def' (by decide : 1 < 10) h2]
      simp
    · rw [if_neg hu, digitByte_eq_digitChar _ (by omega)]
      rw [Nat.digits_of_lt 10 u (by omega) (by omega)]
      simp

theorem fmtUnsigned_eq_decimalNat (n : Nat) : fmtUnsigned n = (decimalNat n).toList := by
  unfold fmtUnsigned decimalNat
  by_cases h : n = 0
  · subst h; rfl
  · rw [if_neg h, fmtIntegerLoop_eq_digits n n [] le_rfl (Nat.pos_of_ne_zero h)]
    simp

theorem fmtInteger_eq_decimal (i : Int) : fmtInteger i = (decimal i).toList := by
  unfold fmtInteger decimal
  split <;> simp [fmtUnsigned_eq_decimalNat]

theorem decimal_eq_mk (i : Int) : decimal i = String.mk (fmtInteger i) := by
  rw [fmtInteger_eq_decimal]; rfl

/-! ## The three placeholder formats -/

theorem Sprintf_placeholder (i : Int) : Sprintf "$%d" [.int i] = "$" ++ decimal i := by
  apply String.ext
  have h : "$%d".toList = ['$', '%', 'd'] := rfl
  simp [Sprintf, h, doPrintf, printArg, extraArgs, fmtInteger_eq_decimal]

theorem Sprintf_placeholder_geometry (i : Int) :
    Sprintf "$%d::Geometry" [.int i] = "$" ++ decimal i ++ "::Geometry" := by
  apply String.ext
  have h : "$%d::Geometry".toList =
      ['$', '%', 'd', ':', ':', 'G', 'e', 'o', 'm', 'e', 't', 'r', 'y'] := rfl
  simp [Sprintf, h, doPrintf, printArg, extraArgs, fmtInteger_eq_decimal]

theorem Sprintf_placeholder_hstore (i : Int) :
    Sprintf "$%d::hstore" [.int i] = "$" ++ decimal i ++ "::hstore" := by
  apply String.ext
  have h : "$%d::hstore".toList =
      ['$', '%', 'd', ':', ':', 'h', 's', 't', 'o', 'r', 'e'] := rfl
  simp [Sprintf, h, doPrintf, printArg, extraArgs, fmtInteger_eq_decimal]

/-! ## The scanning loop on literal text and on the verbs `%s`, `%f` -/

theorem doPrintf_literal (lit : List Char) (h : '%' ∉ lit) (rest : List Char)
    (args : List Arg) : doPrintf (lit ++ rest) args = lit ++ doPrintf rest args := by
  induction lit with
  | nil => rfl
  | cons c lit ih =>
    have hc : c ≠ '%' := fun e => h (by simp [e])
    have hl : '%' ∉ lit := fun e => h (by simp [e])
    rw [List.cons_append, doPrintf.eq_def]
    simp only [ne_eq, hc, not_false_eq_true, if_true, ih hl, List.cons_append]

theorem doPrintf_string (s : String) (rest : List Char) (args : List Arg) :
    doPrintf ('%' :: 's' :: rest) (.string s :: args) = s.toList ++ doPrintf rest args := by
  simp [doPrintf, printArg]

theorem doPrintf_float (f : float64) (rest : List Char) (args : List Arg) :
    doPrintf ('%' :: 'f' :: rest) (.float64 f :: args) = fmtFloat f ++ doPrintf rest args := by
  simp [doPrintf, printArg]

/-! ## The generalize formats and the warning format -/

theorem Sprintf_simplify (n m : String) (t : float64) :
    Sprintf "ST_SimplifyPreserveTopology(\"%s\", %f) as \"%s\""
        [.string n, .float64 t, .string m] =
      "ST_SimplifyPreserveTopology(\"" ++ n ++ "\", " ++ String.mk (fmtFloat t) ++
        ") as \"" ++ m ++ "\"" := by
  have h : "ST_SimplifyPreserveTopology(\"%s\", %f) as \"%s\"".toList =
      "ST_SimplifyPreserveTopology(\"".toList ++ ('%' :: 's' :: ("\", ".toList ++
        ('%' :: 'f' :: (") as \"".toList ++ ('%' :: 's' :: ("\"".toList ++ [])))))) := by
    decide
  apply String.ext
  simp only [Sprintf, h]
  rw [doPrintf_literal _ (by decide), doPrintf_string, doPrintf_literal _ (by decide),
    doPrintf_float, doPrintf_literal _ (by decide), doPrintf_string,
    doPrintf_literal _ (by decide)]
  simp [doPrintf, extraArgs]

theorem Sprintf_buffer (n m : String) (t : float64) :
    Sprintf "ST_Buffer(ST_SimplifyPreserveTopology(\"%s\", %f), 0) as \"%s\""
        [.string n, .float64 t, .string m] =
      "ST_Buffer(ST_SimplifyPreserveTopology(\"" ++ n ++ "\", " ++ String.mk (fmtFloat t) ++
        "), 0) as \"" ++ m ++ "\"" := by
  have h : "ST_Buffer(ST_SimplifyPreserveTopology(\"%s\", %f), 0) as \"%s\"".toList =
      "ST_Buffer(ST_SimplifyPreserveTopology(\"".toList ++ ('%' :: 's' :: ("\", ".toList ++
        ('%' :: 'f' :: ("), 0) as \"".toList ++ ('%' :: 's' :: ("\"".toList ++ [])))))) := by
    decide
  apply String.ext
  simp only [Sprintf, h]
  rw [doPrintf_literal _ (by decide), doPrintf_string, doPrintf_literal _ (by decide),
    doPrintf_float, doPrintf_literal _ (by decide), doPrintf_string,
    doPrintf_literal _ (by decide)]
  simp [doPrintf, extraArgs]

theorem Sprintf_warning (f : String) :
    Sprintf "validated_geometry column returns polygon geometries for %s" [.string f] =
      "validated_geometry column returns polygon geometries for " ++ f := by
  have h : "validated_geometry column returns polygon geometries for %s".toList =
      "validated_geometry column returns polygon geometries for ".toList ++
        ('%' :: 's' :: []) := by
    decide
  apply String.ext
  simp only [Sprintf, h]
  rw [doPrintf_literal _ (by decide), doPrintf_string]
  simp [doPrintf, extraArgs]

/-! ## The two components of the validated geometry's `GeneralizeSql` -/

theorem validated_generalizeSql_fst (t : validatedGeometryType) (n f g : String)
    (tol : float64) (log : Log) :
    (t.GeneralizeSql (some ⟨n⟩) (some ⟨f, some ⟨g⟩, tol⟩) log).1 =
      .ok ("ST_Buffer(ST_SimplifyPreserveTopology(\"" ++ n ++ "\", " ++
        String.mk (fmtFloat tol) ++ "), 0) as \"" ++ n ++ "\"") := by
  rw [← Sprintf_buffer]
  unfold validatedGeometryType.GeneralizeSql
  simp only
  split <;> rfl

theorem validated_generalizeSql_snd (t : validatedGeometryType) (colSpec : Option ColumnSpec)
    (f g : String) (tol : float64) (log : Log) :
    (t.GeneralizeSql colSpec (some ⟨f, some ⟨g⟩, tol⟩) log).2 =
      if g = "polygon" then log
      else log ++ [⟨Level.warning,
        "validated_geometry column returns polygon geometries for " ++ f⟩] := by
  unfold validatedGeometryType.GeneralizeSql
  simp only
  by_cases hg : g = "polygon"
  · simp [hg]
  · simp [hg, Log.Warnf, Sprintf_warning]

/-! ## Lookups in a registry -/

theorem get_isSome_iff (r : Registry) (k : String) :
    (r.get k).isSome = true ↔ k ∈ r.keys := by
  induction r with
  | nil => simp [Registry.get, Registry.keys]
  | cons e r ih =>
    obtain ⟨k2, v2⟩ := e
    unfold Registry.get Registry.keys at *
    rw [List.lookup_cons]
    by_cases hk : k = k2
    · subst hk; simp
    · have : (k == k2) = false := by simpa using hk
      rw [this]
      simp [ih, hk]

theorem get_mem (r : Registry) (k : String) (v : ColumnType) (h : r.get k = some v) :
    (k, v) ∈ r := by
  induction r with
  | nil => simp [Registry.get, List.lookup] at h
  | cons e r ih =>
    obtain ⟨k2, v2⟩ := e
    unfold Registry.get at h ih
    rw [List.lookup_cons] at h
    by_cases hk : k = k2
    · subst hk; simp at h; simp [h]
    · have : (k == k2) = false := by simpa using hk
      rw [this] at h
      simp [ih h]

/-! ## Assignments and registrations -/

theorem get_filter_ne (r : Registry) (k k2 : String) (h : k2 ≠ k) :
    Registry.get (r.filter fun e => e.1 ≠ k) k2 = r.get k2 := by
  induction r with
  | nil => rfl
  | cons e r ih =>
    obtain ⟨a, b⟩ := e
    unfold Registry.get at *
    by_cases ha : a = k
    · subst ha
      have hb : (k2 == a) = false := by simpa using h
      simpa [List.filter_cons, List.lookup_cons, hb] using ih
    · rw [List.filter_cons_of_pos (by simpa using ha), List.lookup_cons, List.lookup_cons, ih]

theorem get_set_self (r : Registry) (k : String) (v : ColumnType) :
    (r.set k v).get k = some v := by
  simp [Registry.set, Registry.get, List.lookup_cons]

theorem get_set_ne (r : Registry) (k k2 : String) (v : ColumnType) (h : k2 ≠ k) :
    (r.set k v).get k2 = r.get k2 := by
  have hb : (k2 == k) = false := by simpa using h
  have := get_filter_ne r k k2 h
  unfold Registry.get at *
  rw [Registry.set, List.lookup_cons, hb]
  exact this

theorem filter_ne_of_not_mem (r : Registry) (k : String) (h : k ∉ r.keys) :
    (r.filter fun e => e.1 ≠ k) = r := by
  rw [List.filter_eq_self]
  intro e he
  have : e.1 ≠ k := by
    rintro rfl
    exact h (List.mem_map_of_mem Prod.fst he)
  simpa using this

theorem registerColumnType_of_not_mem (r : Registry) (k : String) (v : ColumnType)
    (h : k ∉ r.keys) : registerColumnType r k v = (.ok (), (k, v) :: r) := by
  have hn : r.get k = none := by
    have := (get_isSome_iff r k).not.mpr h
    simpa using this
  unfold registerColumnType
  rw [hn]
  simp only [Registry.set]
  rw [filter_ne_of_not_mem r k h]

theorem registerColumnType_of_mem (r : Registry) (k : String) (v : ColumnType)
    (h : k ∈ r.keys) :
    registerColumnType r k v =
      (.error ("postgis.RegisterColumnType duplicate key: " ++ k), r) := by
  have := (get_isSome_iff r k).mpr h
  unfold registerColumnType
  cases hg : r.get k with
  | none => simp [hg] at this
  | some w => rfl

theorem registerColumnType_get_mono (r : Registry) (k2 : String) (v2 : ColumnType)
    (k : String) (v : ColumnType) (h : r.get k = some v) :
    (registerColumnType r k2 v2).2.get k = some v := by
  by_cases hk : k2 ∈ r.keys
  · rw [registerColumnType_of_mem r k2 v2 hk]; exact h
  · rw [registerColumnType_of_not_mem r k2 v2 hk]
    have hne : k ≠ k2 := by
      rintro rfl
      exact hk ((get_isSome_iff r k).mp (by simp [h]))
    have hb : (k == k2) = false := by simpa using hne
    unfold Registry.get at *
    simp [List.lookup_cons, hb, h]

theorem registerAll_get_mono (calls : List (String × ColumnType)) :
    ∀ (r : Registry) (k : String) (v : ColumnType), r.get k = some v →
      (registerAll r calls).get k = some v := by
  induction calls with
  | nil => intro r k v h; exact h
  | cons c calls ih =>
    intro r k v h
    obtain ⟨k2, v2⟩ := c
    exact ih _ k v (registerColumnType_get_mono r k2 v2 k v h)

/-! ## Digit strings -/

theorem digitChar_toNat (d : Nat) (h : d < 10) : (Nat.digitChar d).toNat - 48 = d := by
  interval_cases d <;> rfl

theorem digitChar_isDigit (d : Nat) (h : d < 10) : (Nat.digitChar d).isDigit = true := by
  interval_cases d <;> rfl

theorem digitsValue_append_singleton (ds : List Char) (c : Char) :
    digitsValue (ds ++ [c]) = 10 * digitsValue ds + (c.toNat - 48) := by
  simp [digitsValue, List.foldl_append]

theorem digitsValue_digits (l : List Nat) (h : ∀ d ∈ l, d < 10) :
    digitsValue (l.reverse.map Nat.digitChar) = Nat.ofDigits 10 l := by
  induction l with
  | nil => rfl
  | cons d l ih =>
    rw [List.reverse_cons, List.map_append, List.map_singleton, digitsValue_append_singleton,
      ih (fun x hx => h x (List.mem_cons_of_mem _ hx)),
      digitChar_toNat d (h d (List.mem_cons_self _ _)), Nat.ofDigits_cons]
    omega

theorem digitsValue_fmtUnsigned (n : Nat) : digitsValue (fmtUnsigned n) = n := by
  rw [fmtUnsigned_eq_decimalNat]
  unfold decimalNat
  by_cases h : n = 0
  · subst h; rfl
  · rw [if_neg h]
    show digitsValue ((Nat.digits 10 n).reverse.map Nat.digitChar) = n
    rw [digitsValue_digits _ (fun d hd => Nat.digits_lt_base (by decide) hd), Nat.ofDigits_digits]

theorem fmtUnsigned_isDigit (n : Nat) : ∀ c ∈ fmtUnsigned n, c.isDigit = true := by
  rw [fmtUnsigned_eq_decimalNat]
  unfold decimalNat
  by_cases h : n = 0
  · subst h; decide
  · rw [if_neg h]
    intro c hc
    have hc2 : c ∈ (Nat.digits 10 n).reverse.map Nat.digitChar := hc
    simp only [List.mem_map, List.mem_reverse] at hc2
    obtain ⟨d, hd, rfl⟩ := hc2
    exact digitChar_isDigit d (Nat.digits_lt_base (by decide) hd)

theorem fmtUnsigned_ne_nil (n : Nat) : fmtUnsigned n ≠ [] := by
  intro h
  have := digitsValue_fmtUnsigned n
  rw [h] at this
  have h0 : n = 0 := by simpa [digitsValue] using this.symm
  subst h0
  revert h; decide

theorem fmtUnsigned_injective (m n : Nat) (h : fmtUnsigned m = fmtUnsigned n) : m = n := by
  rw [← digitsValue_fmtUnsigned m, ← digitsValue_fmtUnsigned n, h]

theorem fmtInteger_injective (i j : Int) (h : fmtInteger i = fmtInteger j) : i = j := by
  have hhead : ∀ n (rest : List Char), fmtUnsigned n ≠ '-' :: rest := by
    intro n rest e
    have := fmtUnsigned_isDigit n '-' (by rw [e]; exact List.mem_cons_self _ _)
    revert this; decide
  unfold fmtInteger at h
  by_cases hi : i < 0 <;> by_cases hj : j < 0
  · rw [if_pos hi, if_pos hj] at h
    have := fmtUnsigned_injective _ _ (List.cons.inj h).2
    omega
  · rw [if_pos hi, if_neg hj] at h
    exact absurd h.symm (hhead _ _)
  · rw [if_neg hi, if_pos hj] at h
    exact absurd h (hhead _ _)
  · rw [if_neg hi, if_neg hj] at h
    have := fmtUnsigned_injective _ _ h
    omega

theorem decimal_injective (i j : Int) (h : decimal i = decimal j) : i = j := by
  apply fmtInteger_injective
  rw [fmtInteger_eq_decimal, fmtInteger_eq_decimal, h]

theorem prepareInsertSql_eq (c : ColumnType) (i : Int) (spec : Option TableSpec) :
    c.PrepareInsertSql i spec = "$" ++ decimal i ++ c.castSuffix := by
  cases c with
  | simple t =>
    show Sprintf "$%d" [.int i] = _
    rw [Sprintf_placeholder]; simp [ColumnType.castSuffix]
  | hstore t => exact Sprintf_placeholder_hstore i
  | geometry t => exact Sprintf_placeholder_geometry i
  | validatedGeometry t => exact Sprintf_placeholder_geometry i

theorem geometry_generalizeSql_eq (t : geometryType) (n : String) (s : GeneralizedTableSpec) :
    t.GeneralizeSql (some ⟨n⟩) (some s) =
      .ok ("ST_SimplifyPreserveTopology(\"" ++ n ++ "\", " ++
        String.mk (fmtFloat s.Tolerance) ++ ") as \"" ++ n ++ "\"") := by
  rw [← Sprintf_simplify]; rfl

/-! ## The `%f` rendering: shape, denoted value and rounding error -/

theorem roundHalfEven_bounds (num den : Nat) (hden : 0 < den) :
    2 * (roundHalfEven num den * den) ≤ 2 * num + den ∧
    2 * num ≤ 2 * (roundHalfEven num den * den) + den := by
  have hdm := Nat.div_add_mod num den
  have hr := Nat.mod_lt num hden
  unfold roundHalfEven
  simp only
  generalize num / den = a at *
  generalize num % den = r at *
  have hmul : den * a = a * den := Nat.mul_comm _ _
  generalize hp : a * den = p at *
  have h1 : (a + 1) * den = p + den := by rw [Nat.add_mul, hp]; omega
  split_ifs <;> simp only [h1, hp] <;> omega

theorem roundHalfEven_exact_iff (num den : Nat) (hden : 0 < den) :
    roundHalfEven num den * den = num ↔ den ∣ num := by
  constructor
  · intro h
    exact Dvd.intro_left _ h
  · intro h
    have hr : num % den = 0 := Nat.mod_eq_zero_of_dvd h
    unfold roundHalfEven
    simp only [hr]
    have h1 : ¬ (2 * 0 > den) := by omega
    have h2 : ¬ (2 * 0 = den) := by omega
    rw [if_neg h1, if_neg h2]
    exact Nat.div_mul_cancel h



theorem splitPoint_append (ds rest : List Char) (h : ∀ c ∈ ds, c.isDigit = true) :
    splitPoint (ds ++ '.' :: rest) = (ds, rest) := by
  induction ds with
  | nil => simp [splitPoint]
  | cons c ds ih =>
    have hc : c ≠ '.' := by
      rintro rfl
      have := h '.' (List.mem_cons_self _ _)
      revert this; decide
    rw [List.cons_append, splitPoint, if_neg hc,
      ih (fun x hx => h x (List.mem_cons_of_mem _ hx))]

theorem digitsValue_append (a b : List Char) :
    digitsValue (a ++ b) = b.foldl (fun acc c => 10 * acc + (c.toNat - 48)) (digitsValue a) := by
  simp [digitsValue, List.foldl_append]

theorem digitsValue_replicate_zero (k : Nat) : digitsValue (List.replicate k '0') = 0 := by
  induction k with
  | zero => rfl
  | succ k ih =>
    rw [List.replicate_succ', digitsValue_append_singleton, ih]
    rfl

theorem digitsValue_padZeros (w : Nat) (ds : List Char) :
    digitsValue (padZeros w ds) = digitsValue ds := by
  unfold padZeros
  rw [digitsValue_append, digitsValue_replicate_zero]
  rfl

theorem fmtUnsigned_length_le (m : Nat) (h : m < 10 ^ 6) : (fmtUnsigned m).length ≤ 6 := by
  rw [fmtUnsigned_eq_decimalNat]
  unfold decimalNat
  by_cases h0 : m = 0
  · subst h0; decide
  · rw [if_neg h0]
    show ((Nat.digits 10 m).reverse.map Nat.digitChar).length ≤ 6
    rw [List.length_map, List.length_reverse]
    have h1 := Nat.base_pow_length_digits_le 10 m (by decide) h0
    have h2 : 10 ^ (Nat.digits 10 m).length < 10 ^ 7 := by omega
    have h3 := (Nat.pow_lt_pow_iff_right (by decide : 1 < 10)).mp h2
    omega

theorem padZeros_length (m : Nat) (h : m < 10 ^ 6) : (padZeros 6 (fmtUnsigned m)).length = 6 := by
  have := fmtUnsigned_length_le m h
  simp [padZeros]
  omega

theorem padZeros_isDigit (m : Nat) : ∀ c ∈ padZeros 6 (fmtUnsigned m), c.isDigit = true := by
  intro c hc
  simp only [padZeros, List.mem_append, List.mem_replicate] at hc
  rcases hc with ⟨_, rfl⟩ | hc
  · decide
  · exact fmtUnsigned_isDigit m c hc

theorem fmtUnsigned_head_ne_minus (n : Nat) (rest : List Char) :
    (fmtUnsigned n ++ rest).head? ≠ some '-' := by
  have hne := fmtUnsigned_ne_nil n
  cases hl : fmtUnsigned n with
  | nil => exact absurd hl hne
  | cons c cs =>
    have := fmtUnsigned_isDigit n c (by rw [hl]; exact List.mem_cons_self _ _)
    simp only [List.cons_append, List.head?_cons, ne_eq, Option.some.injEq]
    rintro rfl
    revert this; decide

theorem fmtFloat_finite (f : float64) (h : f.exponent < 2047) :
    fmtFloat f = (if f.sign then ['-'] else []) ++
      (fmtUnsigned (scaledMicros f / 10 ^ 6) ++
        '.' :: padZeros 6 (fmtUnsigned (scaledMicros f % 10 ^ 6))) := by
  unfold fmtFloat
  rw [if_neg (by omega)]
  simp

theorem fmtFloat_head (f : float64) (h : f.exponent < 2047) :
    ((fmtFloat f).head? = some '-') ↔ f.sign = true := by
  rw [fmtFloat_finite f h]
  cases hs : f.sign
  · simp only [Bool.false_eq_true, if_false, List.nil_append, iff_false]
    exact fmtUnsigned_head_ne_minus _ _
  · simp

theorem fmtFloat_body (f : float64) (h : f.exponent < 2047) :
    splitPoint (if (fmtFloat f).head? = some '-' then (fmtFloat f).tail else fmtFloat f) =
      (fmtUnsigned (scaledMicros f / 10 ^ 6),
        padZeros 6 (fmtUnsigned (scaledMicros f % 10 ^ 6))) := by
  have hh := fmtFloat_head f h
  cases hs : f.sign
  · rw [hs] at hh
    rw [if_neg (by simpa using hh), fmtFloat_finite f h, hs]
    simp only [Bool.false_eq_true, if_false, List.nil_append]
    exact splitPoint_append _ _ (fmtUnsigned_isDigit _)
  · rw [hs] at hh
    rw [if_pos (by simpa using hh), fmtFloat_finite f h, hs]
    simp only [if_true, List.singleton_append, List.tail_cons]
    exact splitPoint_append _ _ (fmtUnsigned_isDigit _)

theorem isFixedPoint6_fmtFloat (f : float64) (h : f.exponent < 2047) :
    isFixedPoint6 (fmtFloat f) = true := by
  unfold isFixedPoint6
  simp only [fmtFloat_body f h]
  have h1 := fmtUnsigned_ne_nil (scaledMicros f / 10 ^ 6)
  have h2 := fmtUnsigned_isDigit (scaledMicros f / 10 ^ 6)
  have h3 := padZeros_length (scaledMicros f % 10 ^ 6) (Nat.mod_lt _ (by decide))
  have h4 := padZeros_isDigit (scaledMicros f % 10 ^ 6)
  have e1 : (fmtUnsigned (scaledMicros f / 10 ^ 6)).isEmpty = false := by
    cases hl : fmtUnsigned (scaledMicros f / 10 ^ 6) with
    | nil => exact absurd hl h1
    | cons c cs => rfl
  have e2 : (fmtUnsigned (scaledMicros f / 10 ^ 6)).all Char.isDigit = true :=
    List.all_eq_true.mpr h2
  have e4 : (padZeros 6 (fmtUnsigned (scaledMicros f % 10 ^ 6))).all Char.isDigit = true :=
    List.all_eq_true.mpr h4
  rw [e1, e2, e4, h3]
  rfl

theorem fixedPointValue_fmtFloat (f : float64) (h : f.exponent < 2047) :
    fixedPointValue (fmtFloat f) =
      if f.sign then -((scaledMicros f : ℚ) / 10 ^ 6) else (scaledMicros f : ℚ) / 10 ^ 6 := by
  unfold fixedPointValue
  simp only [fmtFloat_body f h]
  rw [digitsValue_fmtUnsigned, digitsValue_padZeros, digitsValue_fmtUnsigned,
    padZeros_length _ (Nat.mod_lt _ (by decide))]
  have hv : ((scaledMicros f / 10 ^ 6 : Nat) : ℚ) + ((scaledMicros f % 10 ^ 6 : Nat) : ℚ) / 10 ^ 6 =
      (scaledMicros f : ℚ) / 10 ^ 6 := by
    have := Nat.div_add_mod (scaledMicros f) (10 ^ 6)
    have hq : ((10 ^ 6 * (scaledMicros f / 10 ^ 6) + scaledMicros f % 10 ^ 6 : Nat) : ℚ) =
        (scaledMicros f : ℚ) := by rw [this]
    push_cast at hq
    field_simp
    linarith
  rw [hv]
  have hh := fmtFloat_head f h
  cases hs : f.sign
  · rw [hs] at hh
    rw [if_neg (by simpa using hh)]; simp
  · rw [hs] at hh
    rw [if_pos (by simpa using hh)]; simp



theorem scaledMicros_error (f : float64) :
    |(scaledMicros f : ℚ) / 10 ^ 6 - f.magnitude| ≤ 1 / (2 * 10 ^ 6) := by
  unfold scaledMicros float64.magnitude
  simp only
  generalize (if f.exponent = 0 then f.fraction else 2 ^ 52 + f.fraction) = mant
  generalize (if f.exponent = 0 then 1 else f.exponent) = e
  by_cases he : e ≥ 1075
  · rw [if_pos he, if_pos he]
    have hc : ((mant * 2 ^ (e - 1075) * 10 ^ 6 : Nat) : ℚ) =
        ((mant * 2 ^ (e - 1075) : Nat) : ℚ) * 10 ^ 6 := by push_cast; ring
    rw [hc, mul_div_assoc, div_self (by norm_num), mul_one, sub_self, abs_zero]
    positivity
  · rw [if_neg he, if_neg he]
    have hden : 0 < 2 ^ (1075 - e) := Nat.pos_pow_of_pos _ (by decide)
    obtain ⟨h1, h2⟩ := roundHalfEven_bounds (mant * 10 ^ 6) (2 ^ (1075 - e)) hden
    generalize roundHalfEven (mant * 10 ^ 6) (2 ^ (1075 - e)) = q at h1 h2
    have hD : (0 : ℚ) < ((2 ^ (1075 - e) : Nat) : ℚ) := by exact_mod_cast hden
    have h1q : (2 * (q * 2 ^ (1075 - e)) : ℚ) ≤ 2 * (mant * 10 ^ 6) + 2 ^ (1075 - e) := by
      exact_mod_cast h1
    have h2q : (2 * (mant * 10 ^ 6) : ℚ) ≤ 2 * (q * 2 ^ (1075 - e)) + 2 ^ (1075 - e) := by
      exact_mod_cast h2
    push_cast at hD
    generalize (2 : ℚ) ^ (1075 - e) = D at hD h1q h2q ⊢
    have key : (q : ℚ) / 10 ^ 6 - mant / D = (q * D - mant * 10 ^ 6) / (10 ^ 6 * D) := by
      field_simp
      ring
    rw [key, abs_le]
    constructor
    · rw [le_div_iff₀ (by positivity)]
      nlinarith
    · rw [div_le_iff₀ (by positivity)]
      nlinarith

theorem scaledMicros_exact_iff (f : float64) :
    (scaledMicros f : ℚ) / 10 ^ 6 = f.magnitude ↔ ∃ m : Nat, f.magnitude * 10 ^ 6 = m := by
  unfold scaledMicros float64.magnitude
  simp only
  generalize (if f.exponent = 0 then f.fraction else 2 ^ 52 + f.fraction) = mant
  generalize (if f.exponent = 0 then 1 else f.exponent) = e
  by_cases he : e ≥ 1075
  · rw [if_pos he, if_pos he]
    constructor
    · intro _
      exact ⟨mant * 2 ^ (e - 1075) * 10 ^ 6, by push_cast; ring⟩
    · intro _
      have hc : ((mant * 2 ^ (e - 1075) * 10 ^ 6 : Nat) : ℚ) =
          ((mant * 2 ^ (e - 1075) : Nat) : ℚ) * 10 ^ 6 := by push_cast; ring
      rw [hc, mul_div_assoc, div_self (by norm_num), mul_one]
  · rw [if_neg he, if_neg he]
    have hden : 0 < 2 ^ (1075 - e) := Nat.pos_pow_of_pos _ (by decide)
    have hex := roundHalfEven_exact_iff (mant * 10 ^ 6) (2 ^ (1075 - e)) hden
    generalize roundHalfEven (mant * 10 ^ 6) (2 ^ (1075 - e)) = q at hex
    have hD : ((2 ^ (1075 - e) : Nat) : ℚ) ≠ 0 := by exact_mod_cast hden.ne'
    constructor
    · intro h
      refine ⟨q, ?_⟩
      rw [← h]
      field_simp
    · rintro ⟨m, hm⟩
      have hnat : m * 2 ^ (1075 - e) = mant * 10 ^ 6 := by
        have : (m : ℚ) * ((2 ^ (1075 - e) : Nat) : ℚ) = (mant : ℚ) * 10 ^ 6 := by
          rw [← hm]; push_cast; field_simp
        exact_mod_cast this
      have hq := hex.mpr (Dvd.intro_left _ hnat)
      have hqq : (q : ℚ) * ((2 ^ (1075 - e) : Nat) : ℚ) = (mant : ℚ) * 10 ^ 6 := by
        exact_mod_cast hq
      push_cast at hqq hD
      field_simp
      linarith



theorem fixedPointValue_eq_iff (f : float64) (h : f.exponent < 2047) :
    fixedPointValue (fmtFloat f) = f.toRat ↔ ∃ m : Nat, f.magnitude * 10 ^ 6 = m := by
  rw [fixedPointValue_fmtFloat f h, ← scaledMicros_exact_iff]
  unfold float64.toRat
  cases f.sign <;> simp

theorem fixedPointValue_error (f : float64) (h : f.exponent < 2047) :
    |fixedPointValue (fmtFloat f) - f.toRat| ≤ 1 / (2 * 10 ^ 6) := by
  rw [fixedPointValue_fmtFloat f h]
  have := scaledMicros_error f
  unfold float64.toRat
  cases f.sign
  · simpa using this
  · simp only [if_true]
    rw [neg_sub_neg, abs_sub_comm]
    exact this

/-! ## Pointer receivers and nearest rounding -/

theorem lookup_none_of_not_mem {β : Type} (r : List (String × β)) (k : String)
    (h : k ∉ r.map Prod.fst) : r.lookup k = none := by
  induction r with
  | nil => rfl
  | cons e r ih =>
    obtain ⟨a, b⟩ := e
    simp only [List.map_cons, List.mem_cons, not_or] at h
    have hb : (k == a) = false := by simpa using h.1
    rw [List.lookup_cons, hb]
    exact ih h.2

theorem toRef_generalizeSql (c : ColumnType) (colSpec : Option ColumnSpec)
    (spec : Option GeneralizedTableSpec) (log : Log) :
    c.toRef.GeneralizeSql colSpec spec log = c.GeneralizeSql colSpec spec log := by
  cases c <;> rfl

theorem toRef_of_not_isNil (ref : ColumnTypeRef) (h : ref.isNil = false) :
    ∃ c : ColumnType, ref = c.toRef := by
  cases ref with
  | simple p => cases p with
    | none => cases h
    | some t => exact ⟨.simple t, rfl⟩
  | hstore p => cases p with
    | none => cases h
    | some t => exact ⟨.hstore t, rfl⟩
  | geometry p => cases p with
    | none => cases h
    | some t => exact ⟨.geometry t, rfl⟩
  | validatedGeometry p => cases p with
    | none => cases h
    | some t => exact ⟨.validatedGeometry t, rfl⟩

theorem roundHalfEven_tie_even (num den : Nat) (hden : 0 < den)
    (h : 2 * (roundHalfEven num den * den) = 2 * num + den ∨
      2 * num = 2 * (roundHalfEven num den * den) + den) :
    roundHalfEven num den % 2 = 0 := by
  have hdm := Nat.div_add_mod num den
  have hr := Nat.mod_lt num hden
  unfold roundHalfEven at h ⊢
  simp only at h ⊢
  generalize num / den = a at *
  generalize num % den = r at *
  have hmul : den * a = a * den := Nat.mul_comm _ _
  generalize hp : a * den = p at *
  have h1 : (a + 1) * den = p + den := by rw [Nat.add_mul, hp]; omega
  split_ifs at h ⊢ <;> simp only [h1, hp] at h <;> omega

theorem scaledMicros_nearest (f : float64) :
    |(scaledMicros f : ℚ) - f.magnitude * 10 ^ 6| ≤ 1 / 2 ∧
    (|(scaledMicros f : ℚ) - f.magnitude * 10 ^ 6| = 1 / 2 → Even (scaledMicros f)) := by
  unfold scaledMicros float64.magnitude
  simp only
  generalize (if f.exponent = 0 then f.fraction else 2 ^ 52 + f.fraction) = mant
  generalize (if f.exponent = 0 then 1 else f.exponent) = e
  by_cases he : e ≥ 1075
  · rw [if_pos he, if_pos he]
    have hc : ((mant * 2 ^ (e - 1075) * 10 ^ 6 : Nat) : ℚ) =
        ((mant * 2 ^ (e - 1075) : Nat) : ℚ) * 10 ^ 6 := by push_cast; ring
    rw [hc, sub_self, abs_zero]
    constructor
    · norm_num
    · intro h0; norm_num at h0
  · rw [if_neg he, if_neg he]
    have hden : 0 < 2 ^ (1075 - e) := Nat.pos_pow_of_pos _ (by decide)
    obtain ⟨h1, h2⟩ := roundHalfEven_bounds (mant * 10 ^ 6) (2 ^ (1075 - e)) hden
    have htie := roundHalfEven_tie_even (mant * 10 ^ 6) (2 ^ (1075 - e)) hden
    generalize roundHalfEven (mant * 10 ^ 6) (2 ^ (1075 - e)) = q at h1 h2 htie
    have hD : (0 : ℚ) < ((2 ^ (1075 - e) : Nat) : ℚ) := by exact_mod_cast hden
    have h1q : (2 * (q * ((2 ^ (1075 - e) : Nat) : ℚ)) : ℚ) ≤
        2 * (mant * 10 ^ 6) + ((2 ^ (1075 - e) : Nat) : ℚ) := by exact_mod_cast h1
    have h2q : (2 * (mant * 10 ^ 6) : ℚ) ≤
        2 * (q * ((2 ^ (1075 - e) : Nat) : ℚ)) + ((2 ^ (1075 - e) : Nat) : ℚ) := by
      exact_mod_cast h2
    have hpow : ((2 : ℚ) ^ (1075 - e)) = ((2 ^ (1075 - e) : Nat) : ℚ) := by push_cast; rfl
    rw [hpow]
    have key : (q : ℚ) - mant / ((2 ^ (1075 - e) : Nat) : ℚ) * 10 ^ 6 =
        (q * ((2 ^ (1075 - e) : Nat) : ℚ) - mant * 10 ^ 6) / ((2 ^ (1075 - e) : Nat) : ℚ) := by
      field_simp
    rw [key]
    constructor
    · rw [abs_le]
      constructor
      · rw [le_div_iff₀ hD]; linarith
      · rw [div_le_iff₀ hD]; linarith
    · intro habs
      rw [abs_div, abs_of_pos hD, div_eq_iff hD.ne'] at habs
      have hcases : 2 * (q * 2 ^ (1075 - e)) = 2 * (mant * 10 ^ 6) + 2 ^ (1075 - e) ∨
          2 * (mant * 10 ^ 6) = 2 * (q * 2 ^ (1075 - e)) + 2 ^ (1075 - e) := by
        rcases abs_cases ((q : ℚ) * ((2 ^ (1075 - e) : Nat) : ℚ) - mant * 10 ^ 6) with
          ⟨hpos, _⟩ | ⟨hneg, _⟩
        · left
          have : (2 * (q * ((2 ^ (1075 - e) : Nat) : ℚ)) : ℚ) =
              2 * (mant * 10 ^ 6) + ((2 ^ (1075 - e) : Nat) : ℚ) := by
            rw [hpos] at habs; linarith
          exact_mod_cast this
        · right
          have : (2 * (mant * 10 ^ 6) : ℚ) =
              2 * (q * ((2 ^ (1075 - e) : Nat) : ℚ)) + ((2 ^ (1075 - e) : Nat) : ℚ) := by
            rw [hneg] at habs; linarith
          exact_mod_cast this
      exact Nat.even_iff.mpr (htie hcases)

/-! ## Claims -/

/-- C1: for a key `k` of the default registry with value `v`, `v.IsGeometry()` is
true exactly when `k` is one of geometry, validated_geometry, geometry_noindex,
point, linestring, and false exactly when `k` is one of the other thirteen
names; all eighteen names are keys. -/
theorem isGeometry_default_registry (k : String) (v : ColumnType)
    (h : pgTypes.get k = some v) :
    (v.IsGeometry = true ↔
      k ∈ ["geometry", "validated_geometry", "geometry_noindex", "point", "linestring"]) ∧
    (v.IsGeometry = false ↔
      k ∈ ["string", "bool", "int8", "int32", "int64", "float32", "hstore_string",
        "json_string", "jsonb_string", "date", "time", "timestamp", "char1"]) ∧
    (∀ k2 ∈ ["geometry", "validated_geometry", "geometry_noindex", "point", "linestring",
        "string", "bool", "int8", "int32", "int64", "float32", "hstore_string",
        "json_string", "jsonb_string", "date", "time", "timestamp", "char1"],
      (pgTypes.get k2).isSome = true) := by
  have hm := get_mem _ _ _ h
  simp only [pgTypes, List.mem_cons, Prod.mk.injEq, List.mem_nil_iff, or_false] at hm
  rcases hm with hm | hm | hm | hm | hm | hm | hm | hm | hm | hm | hm | hm | hm | hm | hm |
    hm | hm | hm <;>
    (obtain ⟨rfl, rfl⟩ := hm; decide)

/-- Witness of C1 at the key `point`. -/
theorem isGeometry_default_registry_witness :
    pgTypes.get "point" = some (.geometry ⟨"POINT"⟩) ∧
    ((ColumnType.geometry ⟨"POINT"⟩).IsGeometry = true ↔
      "point" ∈ ["geometry", "validated_geometry", "geometry_noindex", "point", "linestring"]) :=
  ⟨rfl, (isGeometry_default_registry "point" (.geometry ⟨"POINT"⟩) rfl).1⟩

/-- C2: for each of the thirteen plain-scalar keys of the default registry, every
index `i >= 1` and every table spec (present or absent), `PrepareInsertSql`
returns `$` followed by the decimal numeral of `i` and nothing else. -/
theorem prepareInsertSql_plain_scalar (k : String) (i : Int) (spec : Option TableSpec)
    (hk : k ∈ ["string", "bool", "int8", "int32", "int64", "float32", "hstore_string",
        "json_string", "jsonb_string", "date", "time", "timestamp", "char1"])
    (_hi : 1 ≤ i) :
    (pgTypes.get k).map (fun v => v.PrepareInsertSql i spec) = some ("$" ++ decimal i) := by
  simp only [List.mem_cons, List.mem_nil_iff, or_false] at hk
  rcases hk with rfl | rfl | rfl | rfl | rfl | rfl | rfl | rfl | rfl | rfl | rfl | rfl | rfl <;>
    exact congrArg some (Sprintf_placeholder i)

/-- Witness of C2 at the key `int32`, index 3 and an absent table spec. -/
theorem prepareInsertSql_plain_scalar_witness :
    (pgTypes.get "int32").map (fun v => v.PrepareInsertSql 3 none) = some ("$" ++ decimal 3) :=
  prepareInsertSql_plain_scalar "int32" 3 none (by decide) (by decide)

/-- C3: for each of the five geometry-family keys of the default registry
(validated_geometry included), every index `i >= 1` and every table spec,
`PrepareInsertSql` returns `$`, the decimal numeral of `i`, then `::Geometry`;
looking up `point` and calling `PrepareInsertSql(3, ...)` yields `$3::Geometry`. -/
theorem prepareInsertSql_geometry (k : String) (i : Int) (spec : Option TableSpec)
    (hk : k ∈ ["geometry", "validated_geometry", "geometry_noindex", "point", "linestring"])
    (_hi : 1 ≤ i) :
    (pgTypes.get k).map (fun v => v.PrepareInsertSql i spec) =
        some ("$" ++ decimal i ++ "::Geometry") ∧
    (pgTypes.get "point").map (fun v => v.PrepareInsertSql 3 spec) = some "$3::Geometry" := by
  refine ⟨?_, rfl⟩
  simp only [List.mem_cons, List.mem_nil_iff, or_false] at hk
  rcases hk with rfl | rfl | rfl | rfl | rfl <;>
    exact congrArg some (Sprintf_placeholder_geometry i)

/-- Witness of C3 at the key `validated_geometry` and index 12. -/
theorem prepareInsertSql_geometry_witness :
    (pgTypes.get "validated_geometry").map (fun v => v.PrepareInsertSql 12 none) =
      some ("$" ++ decimal 12 ++ "::Geometry") :=
  (prepareInsertSql_geometry "validated_geometry" 12 none (by decide) (by decide)).1

/-- C4: for the hstore variant over any name and every index `i >= 1`,
`PrepareInsertSql` is the plain-scalar placeholder followed by `::hstore`, that
is `$`, the decimal numeral of `i`, `::hstore`; and `GeneralizeSql` returns the
plain-scalar form: the column name between two double quotes. -/
theorem hstore_prepareInsertSql_generalizeSql (s : String) (i : Int)
    (spec : Option TableSpec) (n : String) (gspec : Option GeneralizedTableSpec)
    (_hi : 1 ≤ i) :
    (hstoreColumnType.mk ⟨s⟩).PrepareInsertSql i spec =
        (simpleColumnType.mk s).PrepareInsertSql i spec ++ "::hstore" ∧
    (hstoreColumnType.mk ⟨s⟩).PrepareInsertSql i spec = "$" ++ decimal i ++ "::hstore" ∧
    (hstoreColumnType.mk ⟨s⟩).GeneralizeSql (some ⟨n⟩) gspec =
        (simpleColumnType.mk s).GeneralizeSql (some ⟨n⟩) gspec ∧
    (hstoreColumnType.mk ⟨s⟩).GeneralizeSql (some ⟨n⟩) gspec = .ok ("\"" ++ n ++ "\"") := by
  refine ⟨?_, ?_, rfl, rfl⟩
  · simp only [hstoreColumnType.PrepareInsertSql, simpleColumnType.PrepareInsertSql,
      Sprintf_placeholder_hstore, Sprintf_placeholder]
  · exact Sprintf_placeholder_hstore i

/-- Witness of C4 at the name `HSTORE`, index 2 and column `tags`. -/
theorem hstore_prepareInsertSql_generalizeSql_witness :
    (hstoreColumnType.mk ⟨"HSTORE"⟩).PrepareInsertSql 2 none = "$" ++ decimal 2 ++ "::hstore" ∧
    (hstoreColumnType.mk ⟨"HSTORE"⟩).GeneralizeSql (some ⟨"tags"⟩) none =
      .ok ("\"" ++ "tags" ++ "\"") :=
  ⟨(hstore_prepareInsertSql_generalizeSql "HSTORE" 2 none "tags" none (by decide)).2.1,
    (hstore_prepareInsertSql_generalizeSql "HSTORE" 2 none "tags" none (by decide)).2.2.2⟩

/-- C5, refuted as stated: no key of the default registry has a value whose
`PrepareInsertSql` renders `$`, the decimal numeral of `i`, `::hstore` for every
`i >= 1`; the hstore variant is the value of no key. -/
theorem no_hstore_cast_in_default_registry :
    ¬ ∃ k v, pgTypes.get k = some v ∧
      ∀ i : Int, 1 ≤ i → v.PrepareInsertSql i none = "$" ++ decimal i ++ "::hstore" := by
  rintro ⟨k, v, h, hall⟩
  have h1 := hall 1 le_rfl
  rw [decimal_eq_mk] at h1
  have hm := get_mem _ _ _ h
  simp only [pgTypes, List.mem_cons, Prod.mk.injEq, List.mem_nil_iff, or_false] at hm
  rcases hm with hm | hm | hm | hm | hm | hm | hm | hm | hm | hm | hm | hm | hm | hm | hm |
    hm | hm | hm <;>
    (obtain ⟨rfl, rfl⟩ := hm; revert h1; decide)

/-- C5, amended: the plain scalar, geometry and validated geometry variants are
each the value of some key of the default registry; the hstore variant is the
value of no key, `hstore_string` maps to the plain scalar named `HSTORE`, and
for every key and every `i >= 1` the placeholder is `$i` or `$i::Geometry`. -/
theorem default_registry_variants :
    (∃ k t, pgTypes.get k = some (.simple t)) ∧
    (∃ k t, pgTypes.get k = some (.geometry t)) ∧
    (∃ k t, pgTypes.get k = some (.validatedGeometry t)) ∧
    (∀ k t, pgTypes.get k ≠ some (.hstore t)) ∧
    pgTypes.get "hstore_string" = some (.simple ⟨"HSTORE"⟩) ∧
    (∀ k v (i : Int) spec, pgTypes.get k = some v → 1 ≤ i →
      v.PrepareInsertSql i spec = "$" ++ decimal i ∨
      v.PrepareInsertSql i spec = "$" ++ decimal i ++ "::Geometry") := by
  refine ⟨⟨"string", _, rfl⟩, ⟨"geometry", _, rfl⟩, ⟨"validated_geometry", _, rfl⟩, ?_, rfl, ?_⟩
  · intro k t h
    have hm := get_mem _ _ _ h
    simp [pgTypes] at hm
  · intro k v i spec h _
    have hm := get_mem _ _ _ h
    simp only [pgTypes, List.mem_cons, Prod.mk.injEq, List.mem_nil_iff, or_false] at hm
    rcases hm with hm | hm | hm | hm | hm | hm | hm | hm | hm | hm | hm | hm | hm | hm | hm |
      hm | hm | hm <;>
      obtain ⟨rfl, rfl⟩ := hm
    all_goals first
      | exact Or.inl (Sprintf_placeholder i)
      | exact Or.inr (Sprintf_placeholder_geometry i)

/-- C6: for every plain-scalar variant, every column name (quotes inside it
included) and every generalized table spec (present or absent), `GeneralizeSql`
returns the double-quote character (code point 34), the name unchanged, and the
double-quote character; the log is not touched. -/
theorem simple_generalizeSql (t : simpleColumnType) (n : String)
    (gspec : Option GeneralizedTableSpec) (log : Log) :
    t.GeneralizeSql (some ⟨n⟩) gspec = .ok ("\"" ++ n ++ "\"") ∧
    ("\"" ++ n ++ "\"").toList = Char.ofNat 34 :: (n.toList ++ [Char.ofNat 34]) ∧
    (ColumnType.simple t).GeneralizeSql (some ⟨n⟩) gspec log =
      (.ok ("\"" ++ n ++ "\""), log) := by
  refine ⟨rfl, ?_, rfl⟩
  simp

/-- C7: for the keys geometry, geometry_noindex, point and linestring, every
column name `n` and every generalized table spec, `GeneralizeSql` returns
`ST_SimplifyPreserveTopology("n", F) as "n"` with `F` the `%f` rendering of the
spec's tolerance; with `n = geom` and tolerance 0.5 (sign 0, biased exponent
1022, fraction 0) the result is
`ST_SimplifyPreserveTopology("geom", 0.500000) as "geom"`. -/
theorem geometry_generalizeSql (k n : String) (s : GeneralizedTableSpec) (log : Log)
    (hk : k ∈ ["geometry", "geometry_noindex", "point", "linestring"]) :
    (pgTypes.get k).map (fun v => v.GeneralizeSql (some ⟨n⟩) (some s) log) =
      some (.ok ("ST_SimplifyPreserveTopology(\"" ++ n ++ "\", " ++
        String.mk (fmtFloat s.Tolerance) ++ ") as \"" ++ n ++ "\""), log) ∧
    (pgTypes.get k).map (fun v => v.GeneralizeSql (some ⟨"geom"⟩)
        (some ⟨s.FullName, s.Source, ⟨false, 1022, 0⟩⟩) log) =
      some (.ok "ST_SimplifyPreserveTopology(\"geom\", 0.500000) as \"geom\"", log) := by
  have hgen : ∀ (t : geometryType) (m : String) (tol : float64) (fn : String)
      (src : Option TableSpec),
      (ColumnType.geometry t).GeneralizeSql (some ⟨m⟩) (some ⟨fn, src, tol⟩) log =
        (.ok ("ST_SimplifyPreserveTopology(\"" ++ m ++ "\", " ++
          String.mk (fmtFloat tol) ++ ") as \"" ++ m ++ "\""), log) := by
    intro t m tol fn src
    rw [← Sprintf_simplify]; rfl
  have h05 : ("ST_SimplifyPreserveTopology(\"" ++ "geom" ++ "\", " ++
      String.mk (fmtFloat ⟨false, 1022, 0⟩) ++ ") as \"" ++ "geom" ++ "\"" : String) =
      "ST_SimplifyPreserveTopology(\"geom\", 0.500000) as \"geom\"" := by decide
  simp only [List.mem_cons, List.mem_nil_iff, or_false] at hk
  obtain ⟨fn, src, tol⟩ := s
  rcases hk with rfl | rfl | rfl | rfl
  all_goals
    refine ⟨congrArg some (hgen _ n tol fn src), ?_⟩
    rw [← h05]
    exact congrArg some (hgen _ "geom" _ fn src)

/-- Witness of C7 at the key `linestring`, column `way` and tolerance 2.0
(sign 0, biased exponent 1024, fraction 0). -/
theorem geometry_generalizeSql_witness :
    (pgTypes.get "linestring").map (fun v => v.GeneralizeSql (some ⟨"way"⟩)
        (some ⟨"public.roads_gen", some ⟨"linestring"⟩, ⟨false, 1024, 0⟩⟩) []) =
      some (.ok ("ST_SimplifyPreserveTopology(\"" ++ "way" ++ "\", " ++
        String.mk (fmtFloat ⟨false, 1024, 0⟩) ++ ") as \"" ++ "way" ++ "\""), []) :=
  (geometry_generalizeSql "linestring" "way"
    ⟨"public.roads_gen", some ⟨"linestring"⟩, ⟨false, 1024, 0⟩⟩ [] (by decide)).1

/-- C8: for validated_geometry, every column name `n`, tolerance, source kind
`g` and full name `f`, `GeneralizeSql` returns
`ST_Buffer(ST_SimplifyPreserveTopology("n", F), 0) as "n"`; the string is the
same for any other source kind and full name; with `n = geom`, tolerance 1.0
(sign 0, biased exponent 1023, fraction 0) and `g = linestring` it is
`ST_Buffer(ST_SimplifyPreserveTopology("geom", 1.000000), 0) as "geom"`. -/
theorem validated_generalizeSql (n f g f2 g2 : String) (tol : float64) (log : Log) :
    (pgTypes.get "validated_geometry").map
        (fun v => (v.GeneralizeSql (some ⟨n⟩) (some ⟨f, some ⟨g⟩, tol⟩) log).1) =
      some (.ok ("ST_Buffer(ST_SimplifyPreserveTopology(\"" ++ n ++ "\", " ++
        String.mk (fmtFloat tol) ++ "), 0) as \"" ++ n ++ "\"")) ∧
    (pgTypes.get "validated_geometry").map
        (fun v => (v.GeneralizeSql (some ⟨n⟩) (some ⟨f, some ⟨g⟩, tol⟩) log).1) =
      (pgTypes.get "validated_geometry").map
        (fun v => (v.GeneralizeSql (some ⟨n⟩) (some ⟨f2, some ⟨g2⟩, tol⟩) log).1) ∧
    (pgTypes.get "validated_geometry").map
        (fun v => (v.GeneralizeSql (some ⟨"geom"⟩)
          (some ⟨f, some ⟨"linestring"⟩, ⟨false, 1023, 0⟩⟩) log).1) =
      some (.ok
        "ST_Buffer(ST_SimplifyPreserveTopology(\"geom\", 1.000000), 0) as \"geom\"") := by
  have h1 : ("ST_Buffer(ST_SimplifyPreserveTopology(\"" ++ "geom" ++ "\", " ++
      String.mk (fmtFloat ⟨false, 1023, 0⟩) ++ "), 0) as \"" ++ "geom" ++ "\"" : String) =
      "ST_Buffer(ST_SimplifyPreserveTopology(\"geom\", 1.000000), 0) as \"geom\"" := by decide
  have hget : pgTypes.get "validated_geometry" = some (.validatedGeometry ⟨⟨"GEOMETRY"⟩⟩) := rfl
  simp only [hget, Option.map_some', ColumnType.GeneralizeSql, validated_generalizeSql_fst, h1,
    and_self]

/-- C9: with the log as explicit state, one call of the validated geometry's
`GeneralizeSql` appends exactly one warning-level line, whose text contains the
full name, when the source kind is not exactly `polygon` (so for `Polygon`, the
empty string and `linestring`), and leaves the log as it was when the kind is
`polygon`; the `GeneralizeSql` of every other variant leaves the log as it
was. -/
theorem validated_generalizeSql_diagnostic (t : validatedGeometryType)
    (colSpec : Option ColumnSpec) (spec : Option GeneralizedTableSpec) (f g : String)
    (tol : float64) (log : Log) :
    (g ≠ "polygon" →
      (t.GeneralizeSql colSpec (some ⟨f, some ⟨g⟩, tol⟩) log).2 =
          log ++ [⟨Level.warning,
            "validated_geometry column returns polygon geometries for " ++ f⟩] ∧
        ∃ before after : String,
          "validated_geometry column returns polygon geometries for " ++ f =
            before ++ f ++ after) ∧
    (g = "polygon" → (t.GeneralizeSql colSpec (some ⟨f, some ⟨g⟩, tol⟩) log).2 = log) ∧
    (∀ g2 ∈ ["Polygon", "", "linestring"],
      (t.GeneralizeSql colSpec (some ⟨f, some ⟨g2⟩, tol⟩) log).2 =
        log ++ [⟨Level.warning,
          "validated_geometry column returns polygon geometries for " ++ f⟩]) ∧
    (∀ c : ColumnType, (∀ t2, c ≠ .validatedGeometry t2) →
      (c.GeneralizeSql colSpec spec log).2 = log) := by
  refine ⟨fun hg => ⟨?_, ⟨_, "", (String.append_empty _).symm⟩⟩, fun hg => ?_, ?_, ?_⟩
  · rw [validated_generalizeSql_snd, if_neg hg]
  · rw [validated_generalizeSql_snd, if_pos hg]
  · intro g2 hg2
    have hne : g2 ≠ "polygon" := by
      simp only [List.mem_cons, List.mem_nil_iff, or_false] at hg2
      rcases hg2 with rfl | rfl | rfl <;> decide
    rw [validated_generalizeSql_snd, if_neg hne]
  · intro c hc
    cases c with
    | simple t2 => rfl
    | hstore t2 => rfl
    | geometry t2 => rfl
    | validatedGeometry t2 => exact absurd rfl (hc t2)

/-- C10: for every registry, name and variant, `registerColumnType` panics (with
the duplicate-key message) exactly when the name is already a key, returns
normally exactly when it is not, and on a panic the registry is the one it was
given; on the default registry every one of its eighteen names panics. -/
theorem registerColumnType_duplicate (r : Registry) (k : String) (v : ColumnType) :
    ((registerColumnType r k v).1 =
        .error ("postgis.RegisterColumnType duplicate key: " ++ k) ↔ k ∈ r.keys) ∧
    ((registerColumnType r k v).1 = .ok () ↔ k ∉ r.keys) ∧
    (k ∈ r.keys → (registerColumnType r k v).2 = r) ∧
    pgTypes.keys = ["string", "bool", "int8", "int32", "int64", "float32", "hstore_string",
      "geometry", "validated_geometry", "geometry_noindex", "point", "linestring",
      "json_string", "jsonb_string", "date", "time", "timestamp", "char1"] ∧
    (∀ k2 ∈ pgTypes.keys,
      (registerColumnType pgTypes k2 v).1 =
          .error ("postgis.RegisterColumnType duplicate key: " ++ k2) ∧
        (registerColumnType pgTypes k2 v).2 = pgTypes) := by
  have key : ∀ (r2 : Registry) (k2 : String),
      ((registerColumnType r2 k2 v).1 =
          .error ("postgis.RegisterColumnType duplicate key: " ++ k2) ↔ k2 ∈ r2.keys) ∧
      ((registerColumnType r2 k2 v).1 = .ok () ↔ k2 ∉ r2.keys) ∧
      (k2 ∈ r2.keys → (registerColumnType r2 k2 v).2 = r2) := by
    intro r2 k2
    rw [← get_isSome_iff]
    unfold registerColumnType
    cases r2.get k2 <;> simp
  refine ⟨(key r k).1, (key r k).2.1, (key r k).2.2, rfl, ?_⟩
  intro k2 hk2
  exact ⟨(key pgTypes k2).1.2 hk2, (key pgTypes k2).2.2 hk2⟩

/-- C11: for every registry, every name that is not yet a key and every
variant, `registerColumnType` returns normally, afterwards a lookup of the name
returns the variant, the lookup of every other name returns what it returned
before, and the number of keys has grown by exactly one. -/
theorem registerColumnType_new (r : Registry) (k : String) (v : ColumnType)
    (h : k ∉ r.keys) :
    (registerColumnType r k v).1 = .ok () ∧
    (registerColumnType r k v).2.get k = some v ∧
    (∀ k2, k2 ≠ k → (registerColumnType r k v).2.get k2 = r.get k2) ∧
    (registerColumnType r k v).2.len = r.len + 1 := by
  rw [registerColumnType_of_not_mem r k v h]
  refine ⟨rfl, ?_, ?_, ?_⟩
  · simp [Registry.get, List.lookup_cons]
  · intro k2 hk2
    have hb : (k2 == k) = false := by simpa using hk2
    simp [Registry.get, List.lookup_cons, hb]
  · simp only [Registry.len, Registry.keys, List.map_cons]
    have h2 : k ∉ List.map Prod.fst r := h
    rw [List.dedup_cons_of_not_mem h2, List.length_cons]

/-- Witness of C11: registering the new name `hstore` on the default registry. -/
theorem registerColumnType_new_witness :
    (registerColumnType pgTypes "hstore" (.hstore ⟨⟨"HSTORE"⟩⟩)).1 = .ok () ∧
    (registerColumnType pgTypes "hstore" (.hstore ⟨⟨"HSTORE"⟩⟩)).2.get "hstore" =
      some (.hstore ⟨⟨"HSTORE"⟩⟩) ∧
    (registerColumnType pgTypes "hstore" (.hstore ⟨⟨"HSTORE"⟩⟩)).2.len = pgTypes.len + 1 :=
  have h := registerColumnType_new pgTypes "hstore" (.hstore ⟨⟨"HSTORE"⟩⟩) (by decide)
  ⟨h.1, h.2.1, h.2.2.2⟩

/-- C12: in the registry reached from the default one by any sequence of
`registerColumnType` calls, every default name still maps to its original
variant; a mapping present at some point is the one every later lookup returns;
the variant of a successful registration is the one every later lookup returns;
and a further registration of a present name changes nothing. -/
theorem registry_keys_stable (before after : List (String × ColumnType)) (k : String)
    (v v2 : ColumnType) :
    (k ∈ pgTypes.keys → (registerAll pgTypes before).get k = pgTypes.get k) ∧
    ((registerAll pgTypes before).get k = some v →
      (registerAll (registerAll pgTypes before) after).get k = some v) ∧
    ((registerColumnType (registerAll pgTypes before) k v).1 = .ok () →
      (registerAll (registerColumnType (registerAll pgTypes before) k v).2 after).get k =
        some v) ∧
    ((registerAll pgTypes before).get k = some v →
      (registerColumnType (registerAll pgTypes before) k v2).2 =
        registerAll pgTypes before) := by
  refine ⟨?_, registerAll_get_mono after _ k v, ?_, ?_⟩
  · intro hk
    have hs := (get_isSome_iff pgTypes k).mpr hk
    cases hg : pgTypes.get k with
    | none => simp [hg] at hs
    | some w => exact registerAll_get_mono before pgTypes k w hg
  · intro hok
    apply registerAll_get_mono
    have hk : k ∉ (registerAll pgTypes before).keys := by
      intro hmem
      rw [registerColumnType_of_mem _ k v hmem] at hok
      exact absurd hok (by simp)
    rw [registerColumnType_of_not_mem _ k v hk]
    simp [Registry.get, List.lookup_cons]
  · intro h
    rw [registerColumnType_of_mem _ k v2 ((get_isSome_iff _ k).mp (by simp [h]))]

/-- C17: for every variant and all integers `i`, `j` (zero and negative values
included) with `i` different from `j`, `PrepareInsertSql` returns different
placeholders. -/
theorem prepareInsertSql_injective (c : ColumnType) (i j : Int) (spec : Option TableSpec)
    (h : i ≠ j) : c.PrepareInsertSql i spec ≠ c.PrepareInsertSql j spec := by
  intro e
  rw [prepareInsertSql_eq, prepareInsertSql_eq] at e
  have e2 := congrArg String.data e
  simp only [String.data_append] at e2
  have e3 := List.append_cancel_right e2
  have e4 := List.append_cancel_left e3
  exact h (decimal_injective i j (String.ext e4))

/-- Witness of C17 at the hstore variant and the indices 0 and -1. -/
theorem prepareInsertSql_injective_witness :
    (ColumnType.hstore ⟨⟨"HSTORE"⟩⟩).PrepareInsertSql 0 none ≠
      (ColumnType.hstore ⟨⟨"HSTORE"⟩⟩).PrepareInsertSql (-1) none :=
  prepareInsertSql_injective _ 0 (-1) none (by decide)

/-- C18: for every column name the plain-scalar `GeneralizeSql` output holds
exactly two more double-quote characters (code point 34) than the name; its
first and last characters are double quotes; and it holds exactly two exactly
when the name holds none. -/
theorem simple_generalizeSql_quote_count (t : simpleColumnType) (n : String)
    (gspec : Option GeneralizedTableSpec) :
    ∃ out : String, t.GeneralizeSql (some ⟨n⟩) gspec = .ok out ∧
      out.toList.count (Char.ofNat 34) = 2 + n.toList.count (Char.ofNat 34) ∧
      out.toList.head? = some (Char.ofNat 34) ∧
      out.toList.getLast? = some (Char.ofNat 34) ∧
      (out.toList.count (Char.ofNat 34) = 2 ↔ Char.ofNat 34 ∉ n.toList) := by
  have hq : Char.ofNat 34 = '"' := rfl
  have hout : ("\"" ++ n ++ "\"").toList = '"' :: (n.toList ++ ['"']) := by simp
  refine ⟨"\"" ++ n ++ "\"", rfl, ?_, ?_, ?_, ?_⟩
  · rw [hout, hq]
    simp [List.count_cons, List.count_append]
    omega
  · rw [hout, hq]; rfl
  · rw [hout, hq]
    simp [List.getLast?_cons]
  · rw [hout, hq]
    simp [List.count_cons, List.count_append, List.count_eq_zero]

/-- C13, refuted as stated: a typed nil pointer is a variant that registration
under a new name accepts and a lookup returns, and `Name()` on it panics on the
nil dereference, for the plain scalar, the geometry and (through the promoted
method) the validated geometry. -/
theorem name_panics_on_typed_nil :
    (registerColumnTypeRef pgTypesRef "custom" (.simple none)).1 = .ok () ∧
    (registerColumnTypeRef pgTypesRef "custom" (.simple none)).2.lookup "custom" =
      some (.simple none) ∧
    (ColumnTypeRef.simple none).Name = .error nilDereference ∧
    (ColumnTypeRef.geometry none).Name = .error nilDereference ∧
    (ColumnTypeRef.validatedGeometry none).Name = .error nilDereference := by
  have hreg : registerColumnTypeRef pgTypesRef "custom" (.simple none) =
      (.ok (), ("custom", .simple none) :: pgTypesRef.filter fun e => e.1 ≠ "custom") := by
    rw [registerColumnTypeRef, lookup_none_of_not_mem _ _ (by decide)]
  rw [hreg]
  exact ⟨rfl, by simp [List.lookup_cons], rfl, rfl, rfl⟩

/-- C13, amended: for every variant whose receiver is not nil, `Name`,
`IsGeometry` and `PrepareInsertSql` return normally for every integer index (0
and negative values included) and every table spec, present or absent;
`GeneralizeSql` returns normally when the column spec is present and, for the
geometry variants, the generalized table spec is present and, for validated
geometry, its source is present; `registerColumnType` returns normally when the
name is not yet a key, whatever value is stored. -/
theorem operations_return_normally_non_nil (ref : ColumnTypeRef) (i : Int)
    (spec : Option TableSpec) (col : ColumnSpec) (colSpec : Option ColumnSpec)
    (gspec : Option GeneralizedTableSpec) (fullName : String) (src : TableSpec)
    (srcOpt : Option TableSpec) (tol : float64) (log : Log)
    (r : List (String × ColumnTypeRef)) (k : String) (stored : ColumnTypeRef)
    (h : ref.isNil = false) :
    ∃ c : ColumnType, ref = c.toRef ∧
      ref.Name = .ok c.Name ∧
      ref.IsGeometry = .ok c.IsGeometry ∧
      ref.PrepareInsertSql i spec = .ok ("$" ++ decimal i ++ c.castSuffix) ∧
      ref.GeneralizeSql colSpec gspec log = c.GeneralizeSql colSpec gspec log ∧
      (c.IsGeometry = false →
        (ref.GeneralizeSql (some col) gspec log).1 = .ok ("\"" ++ col.Name ++ "\"")) ∧
      ((∀ t, c ≠ .validatedGeometry t) →
        ∃ out, (ref.GeneralizeSql (some col) (some ⟨fullName, srcOpt, tol⟩) log).1 = .ok out) ∧
      (∃ out, (ref.GeneralizeSql (some col) (some ⟨fullName, some src, tol⟩) log).1 =
        .ok out) ∧
      (k ∉ r.map Prod.fst → (registerColumnTypeRef r k stored).1 = .ok ()) := by
  obtain ⟨c, rfl⟩ := toRef_of_not_isNil ref h
  refine ⟨c, rfl, ?_, ?_, ?_, toRef_generalizeSql c colSpec gspec log, ?_, ?_, ?_, ?_⟩
  · cases c <;> rfl
  · cases c <;> rfl
  · rw [← prepareInsertSql_eq c i spec]
    cases c <;> rfl
  · intro hc
    rw [toRef_generalizeSql]
    cases c with
    | simple t => rfl
    | hstore t => rfl
    | geometry t => cases hc
    | validatedGeometry t => cases hc
  · intro hc
    rw [toRef_generalizeSql]
    cases c with
    | simple t => exact ⟨_, rfl⟩
    | hstore t => exact ⟨_, rfl⟩
    | geometry t => exact ⟨_, geometry_generalizeSql_eq t col.Name ⟨fullName, srcOpt, tol⟩⟩
    | validatedGeometry t => exact absurd rfl (hc t)
  · rw [toRef_generalizeSql]
    cases c with
    | simple t => exact ⟨_, rfl⟩
    | hstore t => exact ⟨_, rfl⟩
    | geometry t => exact ⟨_, geometry_generalizeSql_eq t col.Name ⟨fullName, some src, tol⟩⟩
    | validatedGeometry t =>
      exact ⟨_, validated_generalizeSql_fst t col.Name fullName src.GeometryType tol log⟩
  · intro hk
    rw [registerColumnTypeRef, lookup_none_of_not_mem r k hk]

/-- Witness of C13 at the address of a validated geometry and the index -5. -/
theorem operations_return_normally_non_nil_witness :
    ∃ c : ColumnType, ColumnTypeRef.validatedGeometry (some ⟨⟨"GEOMETRY"⟩⟩) = c.toRef ∧
      (ColumnTypeRef.validatedGeometry (some ⟨⟨"GEOMETRY"⟩⟩)).Name = .ok c.Name ∧
      (ColumnTypeRef.validatedGeometry (some ⟨⟨"GEOMETRY"⟩⟩)).PrepareInsertSql (-5) none =
        .ok ("$" ++ decimal (-5) ++ c.castSuffix) :=
  have ⟨c, h1, h2, _, h4, _⟩ := operations_return_normally_non_nil
    (.validatedGeometry (some ⟨⟨"GEOMETRY"⟩⟩)) (-5) none ⟨"geom"⟩ none none "public.roads_gen"
    ⟨"polygon"⟩ none ⟨false, 1022, 0⟩ [] pgTypesRef "custom" (.simple none) rfl
  ⟨c, h1, h2, h4⟩

/-- C14: the hstore variant over a name gives the same `Name`, `IsGeometry` and
`GeneralizeSql` results as the plain scalar over that name, and the validated
geometry gives the same `Name`, `IsGeometry` and `PrepareInsertSql` results as
the geometry over that name; the first pair differs in `PrepareInsertSql`, the
second in `GeneralizeSql`. -/
theorem embedded_base_agreement (s : String) (i : Int) (spec : Option TableSpec)
    (colSpec : Option ColumnSpec) (gspec : Option GeneralizedTableSpec) (col : ColumnSpec)
    (fullName : String) (src : TableSpec) (tol : float64) (log : Log) :
    (hstoreColumnType.mk ⟨s⟩).Name = (simpleColumnType.mk s).Name ∧
    (hstoreColumnType.mk ⟨s⟩).IsGeometry = (simpleColumnType.mk s).IsGeometry ∧
    (hstoreColumnType.mk ⟨s⟩).GeneralizeSql colSpec gspec =
      (simpleColumnType.mk s).GeneralizeSql colSpec gspec ∧
    (validatedGeometryType.mk ⟨s⟩).Name = (geometryType.mk s).Name ∧
    (validatedGeometryType.mk ⟨s⟩).IsGeometry = (geometryType.mk s).IsGeometry ∧
    (validatedGeometryType.mk ⟨s⟩).PrepareInsertSql i spec =
      (geometryType.mk s).PrepareInsertSql i spec ∧
    (hstoreColumnType.mk ⟨s⟩).PrepareInsertSql i spec ≠
      (simpleColumnType.mk s).PrepareInsertSql i spec ∧
    ((validatedGeometryType.mk ⟨s⟩).GeneralizeSql (some col)
        (some ⟨fullName, some src, tol⟩) log).1 ≠
      (geometryType.mk s).GeneralizeSql (some col) (some ⟨fullName, some src, tol⟩) := by
  refine ⟨rfl, rfl, rfl, rfl, rfl, rfl, ?_, ?_⟩
  · intro e
    have e1 : "$" ++ decimal i ++ "::hstore" = "$" ++ decimal i := by
      rw [← Sprintf_placeholder_hstore, ← Sprintf_placeholder]; exact e
    have e2 := congrArg String.length e1
    simp only [String.length_append] at e2
    have h8 : "::hstore".length = 8 := rfl
    omega
  · rw [validated_generalizeSql_fst, geometry_generalizeSql_eq]
    intro e
    have e1 := Except.ok.inj e
    have e2 := congrArg String.length e1
    simp only [String.length_append] at e2
    have h1 : "ST_Buffer(ST_SimplifyPreserveTopology(\"".length = 39 := rfl
    have h2 : "ST_SimplifyPreserveTopology(\"".length = 29 := rfl
    have h3 : "), 0) as \"".length = 10 := rfl
    have h4 : ") as \"".length = 6 := rfl
    omega

/-- C15, refuted as stated: on a generalized table spec whose source pointer is
nil the geometry's `GeneralizeSql` returns the simplify expression aliased to
the column, while the validated geometry's `GeneralizeSql` panics on the nil
dereference instead of returning the buffered expression. -/
theorem validated_generalizeSql_nil_source :
    (geometryType.mk "GEOMETRY").GeneralizeSql (some ⟨"geom"⟩)
        (some ⟨"public.roads_gen", none, ⟨false, 1022, 0⟩⟩) =
      .ok ("ST_SimplifyPreserveTopology(\"geom\", 0.500000)" ++ " as \"" ++ "geom" ++ "\"") ∧
    ((validatedGeometryType.mk ⟨"GEOMETRY"⟩).GeneralizeSql (some ⟨"geom"⟩)
        (some ⟨"public.roads_gen", none, ⟨false, 1022, 0⟩⟩) []).1 ≠
      .ok ("ST_Buffer(" ++ "ST_SimplifyPreserveTopology(\"geom\", 0.500000)" ++
        ", 0) as \"" ++ "geom" ++ "\"") ∧
    ((validatedGeometryType.mk ⟨"GEOMETRY"⟩).GeneralizeSql (some ⟨"geom"⟩)
        (some ⟨"public.roads_gen", none, ⟨false, 1022, 0⟩⟩) []).1 = .error nilDereference := by
  refine ⟨?_, ?_, rfl⟩
  · rw [geometry_generalizeSql_eq]
    exact congrArg Except.ok (by decide)
  · intro h
    cases h

/-- C15, amended: for every column name and every generalized table spec whose
source is present, if the geometry's `GeneralizeSql` returns `X` followed by the
alias to the column, then `X` is the simplify call and the validated geometry's
`GeneralizeSql` returns `ST_Buffer(X, 0)` followed by the same alias. -/
theorem validated_wraps_geometry (t : geometryType) (n : String) (s : GeneralizedTableSpec)
    (log : Log) (X : String) (hsrc : s.Source.isSome = true)
    (hX : t.GeneralizeSql (some ⟨n⟩) (some s) = .ok (X ++ " as \"" ++ n ++ "\"")) :
    X = "ST_SimplifyPreserveTopology(\"" ++ n ++ "\", " ++
      String.mk (fmtFloat s.Tolerance) ++ ")" ∧
    ((validatedGeometryType.mk t).GeneralizeSql (some ⟨n⟩) (some s) log).1 =
      .ok ("ST_Buffer(" ++ X ++ ", 0) as \"" ++ n ++ "\"") := by
  rcases s with ⟨fn, _ | ⟨g⟩, tol⟩
  · cases hsrc
  · rw [geometry_generalizeSql_eq] at hX
    have e1 := congrArg String.data (Except.ok.inj hX)
    simp only [String.data_append] at e1
    rw [show ([')', ' ', 'a', 's', ' ', '"'] : List Char) = [')'] ++ [' ', 'a', 's', ' ', '"']
      from rfl, ← List.append_assoc] at e1
    have e2 := List.append_cancel_right (List.append_cancel_right (List.append_cancel_right e1))
    have hXeq : X = "ST_SimplifyPreserveTopology(\"" ++ n ++ "\", " ++
        String.mk (fmtFloat tol) ++ ")" := by
      apply String.ext
      simp only [String.data_append]
      exact e2.symm
    refine ⟨hXeq, ?_⟩
    rw [validated_generalizeSql_fst ⟨t⟩ n fn g.GeometryType tol log, hXeq]
    congr 1
    apply String.ext
    simp

/-- Witness of C15 at the column `geom`, tolerance 0.5 and source kind `polygon`. -/
theorem validated_wraps_geometry_witness :
    "ST_SimplifyPreserveTopology(\"geom\", 0.500000)" =
        "ST_SimplifyPreserveTopology(\"" ++ "geom" ++ "\", " ++
          String.mk (fmtFloat ⟨false, 1022, 0⟩) ++ ")" ∧
    ((validatedGeometryType.mk ⟨"GEOMETRY"⟩).GeneralizeSql (some ⟨"geom"⟩)
        (some ⟨"public.roads_gen", some ⟨"polygon"⟩, ⟨false, 1022, 0⟩⟩) []).1 =
      .ok ("ST_Buffer(" ++ "ST_SimplifyPreserveTopology(\"geom\", 0.500000)" ++
        ", 0) as \"" ++ "geom" ++ "\"") :=
  validated_wraps_geometry ⟨"GEOMETRY"⟩ "geom"
    ⟨"public.roads_gen", some ⟨"polygon"⟩, ⟨false, 1022, 0⟩⟩ []
    "ST_SimplifyPreserveTopology(\"geom\", 0.500000)" rfl
    ((geometry_generalizeSql_eq _ _ _).trans (congrArg Except.ok (by decide)))

/-- C16, refuted as stated: the tolerance `2^-23` (sign 0, biased exponent 1000,
fraction 0) is rendered as `0.000000`, which denotes 0 and not the tolerance;
and the tolerance `+Inf` (biased exponent 2047, fraction 0) is rendered as
`+Inf`, which is not fixed-point text with six digits after the point. -/
theorem tolerance_text_not_round_trip :
    (float64.mk false 1000 0).wellFormed ∧
    String.mk (fmtFloat ⟨false, 1000, 0⟩) = "0.000000" ∧
    fixedPointValue (fmtFloat ⟨false, 1000, 0⟩) = 0 ∧
    (float64.mk false 1000 0).toRat = 1 / 2 ^ 23 ∧
    fixedPointValue (fmtFloat ⟨false, 1000, 0⟩) ≠ (float64.mk false 1000 0).toRat ∧
    (float64.mk false 2047 0).wellFormed ∧
    String.mk (fmtFloat ⟨false, 2047, 0⟩) = "+Inf" ∧
    isFixedPoint6 (fmtFloat ⟨false, 2047, 0⟩) = false := by
  have hv : fixedPointValue (fmtFloat ⟨false, 1000, 0⟩) = 0 := by
    rw [fixedPointValue_fmtFloat _ (by decide)]
    have : scaledMicros ⟨false, 1000, 0⟩ = 0 := by decide
    rw [this]; simp
  have ht : (float64.mk false 1000 0).toRat = 1 / 2 ^ 23 := by
    simp only [float64.toRat, float64.magnitude]
    norm_num
  refine ⟨by decide, by decide, hv, ht, ?_, by decide, by decide, by decide⟩
  rw [hv, ht]
  norm_num

/-- C16, amended: for every finite tolerance both generalize expressions carry
the same rendering, which is fixed-point text with exactly six digits after the
point and no exponent; the text denotes a whole number `m` of millionths, with
the sign of the tolerance, where `m` is the integer nearest to the magnitude of
the tolerance in millionths and, when two integers are equally near, the even
one; so the text is within half a millionth of the tolerance and equals it
exactly when the tolerance is a whole number of millionths; 0.5 is rendered
`0.500000` and 1.0 `1.000000`, both exactly, while the ties 1/128 and 3/128 are
rendered `0.007812` and `0.023438`. -/
theorem tolerance_text_fixed_point (f : float64) (t : geometryType) (n fn g : String)
    (log : Log) (h : f.exponent < 2047) :
    t.GeneralizeSql (some ⟨n⟩) (some ⟨fn, some ⟨g⟩, f⟩) =
      .ok ("ST_SimplifyPreserveTopology(\"" ++ n ++ "\", " ++
        String.mk (fmtFloat f) ++ ") as \"" ++ n ++ "\"") ∧
    ((validatedGeometryType.mk t).GeneralizeSql (some ⟨n⟩) (some ⟨fn, some ⟨g⟩, f⟩) log).1 =
      .ok ("ST_Buffer(ST_SimplifyPreserveTopology(\"" ++ n ++ "\", " ++
        String.mk (fmtFloat f) ++ "), 0) as \"" ++ n ++ "\"") ∧
    isFixedPoint6 (fmtFloat f) = true ∧
    (∃ m : Nat,
      fixedPointValue (fmtFloat f) =
        (if f.sign then -((m : ℚ) / 10 ^ 6) else (m : ℚ) / 10 ^ 6) ∧
      |(m : ℚ) - f.magnitude * 10 ^ 6| ≤ 1 / 2 ∧
      (|(m : ℚ) - f.magnitude * 10 ^ 6| = 1 / 2 → Even m)) ∧
    |fixedPointValue (fmtFloat f) - f.toRat| ≤ 1 / (2 * 10 ^ 6) ∧
    (fixedPointValue (fmtFloat f) = f.toRat ↔ ∃ m : Nat, f.magnitude * 10 ^ 6 = m) ∧
    (String.mk (fmtFloat ⟨false, 1022, 0⟩) = "0.500000" ∧
      (float64.mk false 1022 0).toRat = 1 / 2 ∧
      fixedPointValue (fmtFloat ⟨false, 1022, 0⟩) = 1 / 2) ∧
    (String.mk (fmtFloat ⟨false, 1023, 0⟩) = "1.000000" ∧
      (float64.mk false 1023 0).toRat = 1 ∧
      fixedPointValue (fmtFloat ⟨false, 1023, 0⟩) = 1) ∧
    (String.mk (fmtFloat ⟨false, 1016, 0⟩) = "0.007812" ∧
      (float64.mk false 1016 0).toRat = 1 / 128) ∧
    (String.mk (fmtFloat ⟨false, 1017, 2 ^ 51⟩) = "0.023438" ∧
      (float64.mk false 1017 (2 ^ 51)).toRat = 3 / 128) := by
  refine ⟨geometry_generalizeSql_eq t n _, validated_generalizeSql_fst _ n fn g f log,
    isFixedPoint6_fmtFloat f h,
    ⟨scaledMicros f, fixedPointValue_fmtFloat f h, (scaledMicros_nearest f).1,
      (scaledMicros_nearest f).2⟩,
    fixedPointValue_error f h, fixedPointValue_eq_iff f h,
    ⟨by decide, ?_, ?_⟩, ⟨by decide, ?_, ?_⟩, ⟨by decide, ?_⟩, ⟨by decide, ?_⟩⟩
  · simp only [float64.toRat, float64.magnitude]; norm_num
  · rw [fixedPointValue_fmtFloat _ (by decide)]
    have : scaledMicros ⟨false, 1022, 0⟩ = 500000 := by decide
    rw [this]; norm_num
  · simp only [float64.toRat, float64.magnitude]; norm_num
  · rw [fixedPointValue_fmtFloat _ (by decide)]
    have : scaledMicros ⟨false, 1023, 0⟩ = 1000000 := by decide
    rw [this]; norm_num
  · simp only [float64.toRat, float64.magnitude]; norm_num
  · simp only [float64.toRat, float64.magnitude]; norm_num

/-- Witness of C16 at the tolerance 1/128 (sign 0, biased exponent 1016,
fraction 0), which lies halfway between 7812 and 7813 millionths. -/
theorem tolerance_text_fixed_point_witness :
    isFixedPoint6 (fmtFloat ⟨false, 1016, 0⟩) = true ∧
    (∃ m : Nat,
      fixedPointValue (fmtFloat ⟨false, 1016, 0⟩) =
        (if (float64.mk false 1016 0).sign then -((m : ℚ) / 10 ^ 6) else (m : ℚ) / 10 ^ 6) ∧
      |(m : ℚ) - (float64.mk false 1016 0).magnitude * 10 ^ 6| ≤ 1 / 2 ∧
      (|(m : ℚ) - (float64.mk false 1016 0).magnitude * 10 ^ 6| = 1 / 2 → Even m)) ∧
    String.mk (fmtFloat ⟨false, 1016, 0⟩) = "0.007812" :=
  have h := tolerance_text_fixed_point ⟨false, 1016, 0⟩ ⟨"GEOMETRY"⟩ "geom" "public.roads_gen"
    "polygon" [] (by decide)
  ⟨h.2.2.1, h.2.2.2.1, h.2.2.2.2.2.2.2.2.1.1⟩

end postgis
